import Mathlib

/-!
# analyzesmd: potential of mean force from steered-MD trajectories

A shallow embedding of `src/analyzesmd.cpp`.

Conventions of the embedding.

* A C++ `double` is a value of `Dbl`: an exact real number, or one of the IEEE
  specials `+inf`, `-inf`, `NaN`.  Finite arithmetic is exact (no rounding, no
  overflow or underflow) and zero carries no sign (a zero divisor behaves as `+0`).
* An `Eigen` array is a function from indices to `Dbl`; the loader checks every
  index it writes against the allocated shape, an index outside it being the
  failure `Fatal.indexOutOfBounds`.
* `std::stoi` and `std::stod` are library functions: they are parameters of the
  model (`Lib`), and so is the stream formatting of a `double` (`PmfLine.text`).
* A `std::string` is a list of characters (one character per byte).
-/

namespace Analyzesmd

/-! ## Doubles -/

/-- A `double`: an exact real, plus or minus infinity, or not-a-number. -/
inductive Dbl where
  | fin (x : ℝ)
  | pinf
  | ninf
  | nan

namespace Dbl

/-- Unary minus. -/
def neg : Dbl → Dbl
  | fin x => fin (-x)
  | pinf => ninf
  | ninf => pinf
  | nan => nan

/-- Addition of doubles. -/
def add : Dbl → Dbl → Dbl
  | fin x, fin y => fin (x + y)
  | fin _, pinf => pinf
  | fin _, ninf => ninf
  | pinf, fin _ => pinf
  | pinf, pinf => pinf
  | ninf, fin _ => ninf
  | ninf, ninf => ninf
  | _, _ => nan

/-- An infinity with the sign of `x`, and `NaN` when `x = 0`. -/
noncomputable def signedInf (x : ℝ) (positive : Bool) : Dbl :=
  if 0 < x then (if positive then pinf else ninf)
  else if x < 0 then (if positive then ninf else pinf)
  else nan

/-- Multiplication of doubles. -/
noncomputable def mul : Dbl → Dbl → Dbl
  | fin x, fin y => fin (x * y)
  | fin x, pinf => signedInf x true
  | fin x, ninf => signedInf x false
  | pinf, fin y => signedInf y true
  | ninf, fin y => signedInf y false
  | pinf, pinf => pinf
  | pinf, ninf => ninf
  | ninf, pinf => ninf
  | ninf, ninf => pinf
  | _, _ => nan

/-- Division of doubles; a finite value over zero is an infinity (or `NaN` for `0/0`). -/
noncomputable def div : Dbl → Dbl → Dbl
  | fin x, fin y => if y = 0 then signedInf x true else fin (x / y)
  | fin _, pinf => fin 0
  | fin _, ninf => fin 0
  | pinf, fin y => if y < 0 then ninf else pinf
  | ninf, fin y => if y < 0 then pinf else ninf
  | _, _ => nan

noncomputable instance : Neg Dbl := ⟨neg⟩
noncomputable instance : Add Dbl := ⟨add⟩
noncomputable instance : Sub Dbl := ⟨fun a b => add a (neg b)⟩
noncomputable instance : Mul Dbl := ⟨mul⟩
noncomputable instance : Div Dbl := ⟨div⟩

/-- The function `exp` of `<math.h>`. -/
noncomputable def exp : Dbl → Dbl
  | fin x => fin (Real.exp x)
  | pinf => pinf
  | ninf => fin 0
  | nan => nan

/-- The function `log` of `<math.h>`: `log(0)` is `-inf`, the log of a negative is `NaN`. -/
noncomputable def log : Dbl → Dbl
  | fin x => if 0 < x then fin (Real.log x) else if x = 0 then ninf else nan
  | pinf => pinf
  | ninf => nan
  | nan => nan

/-- The call `pow(x, 2.0)`. -/
def pow2 : Dbl → Dbl
  | fin x => fin (x ^ 2)
  | pinf => pinf
  | ninf => pinf
  | nan => nan

/-- The function `std::abs` on a double. -/
noncomputable def abs : Dbl → Dbl
  | fin x => fin |x|
  | pinf => pinf
  | ninf => pinf
  | nan => nan

/-- The comparison `a < b` of two doubles; false when either is `NaN`. -/
def lt : Dbl → Dbl → Prop
  | fin x, fin y => x < y
  | fin _, pinf => True
  | ninf, fin _ => True
  | ninf, pinf => True
  | _, _ => False

noncomputable instance (a b : Dbl) : Decidable (lt a b) := Classical.propDecidable _

/-- Conversion of an `int` to `double`. -/
def ofInt (n : ℤ) : Dbl := fin (n : ℝ)

/-- A double that is an ordinary real number. -/
def isFinite : Dbl → Prop
  | fin _ => True
  | _ => False

end Dbl

open Dbl

/-- The constant `gas_constant = 8.3144626 / 4184` (kcal/K/mol). -/
noncomputable def gas_constant : Dbl := fin 8.3144626 / fin 4184

/-! ## The estimator (`// calculating potential of mean force`) -/

/-- The arrays and scalars the estimator reads: `numtraj`, `timesteps`, `rlists`,
`centerlist`, `expworklists` as loaded (still holding the work), the schedule
values and the command-line values `rstepsize` and `temperature`. -/
structure EstimatorInput where
  numtraj : ℕ
  timesteps : ℕ
  rlists : ℕ → ℕ → Dbl
  centerlist : ℕ → Dbl
  worklists : ℕ → ℕ → Dbl
  force_constant : Dbl
  rbegin : Dbl
  rstepsize : Dbl
  temperature : Dbl

/-- Line 141: `expworklists = exp( -expworklists / gas_constant / temperature )`, one entry. -/
noncomputable def expworklists (inp : EstimatorInput) (trajnum timestep : ℕ) : Dbl :=
  Dbl.exp (-(inp.worklists trajnum timestep) / gas_constant / inp.temperature)

/-- Line 142: `expworksum = expworklists.colwise().sum()`, one entry. -/
noncomputable def expworksum (inp : EstimatorInput) (timestep : ℕ) : Dbl :=
  (List.range inp.numtraj).foldl (fun acc trajnum => acc + expworklists inp trajnum timestep) (fin 0)

/-- Line 146: `double r = rbegin + rnum * rstepsize`. -/
noncomputable def gridPoint (inp : EstimatorInput) (rnum : ℕ) : Dbl :=
  inp.rbegin + Dbl.ofInt rnum * inp.rstepsize

/-- Line 148: `expv = exp( -force_constant / 2 * pow(r - centerlist(timestep), 2.0)
/ gas_constant / temperature )`. -/
noncomputable def expv (inp : EstimatorInput) (r : Dbl) (timestep : ℕ) : Dbl :=
  Dbl.exp (-inp.force_constant / fin 2 * Dbl.pow2 (r - inp.centerlist timestep)
    / gas_constant / inp.temperature)

/-- Line 151: the window test `std::abs(rlists(trajnum, timestep) - r) < rstepsize / 2`. -/
def inWindow (inp : EstimatorInput) (r : Dbl) (trajnum timestep : ℕ) : Prop :=
  Dbl.lt (Dbl.abs (inp.rlists trajnum timestep - r)) (inp.rstepsize / fin 2)

noncomputable instance (inp : EstimatorInput) (r : Dbl) (i t : ℕ) : Decidable (inWindow inp r i t) :=
  Classical.propDecidable _

/-- Lines 147-149: `denominator(rnum)` after the loop over `timestep`. -/
noncomputable def denominator (inp : EstimatorInput) (rnum : ℕ) : Dbl :=
  (List.range inp.timesteps).foldl
    (fun acc timestep => acc + expv inp (gridPoint inp rnum) timestep / expworksum inp timestep)
    (fin 0)

/-- Lines 147-154: `numerator(rnum)` after the loops over `timestep` and `trajnum`. -/
noncomputable def numerator (inp : EstimatorInput) (rnum : ℕ) : Dbl :=
  (List.range inp.timesteps).foldl
    (fun acc timestep =>
      (List.range inp.numtraj).foldl
        (fun acc2 trajnum =>
          if inWindow inp (gridPoint inp rnum) trajnum timestep then
            acc2 + expworklists inp trajnum timestep / expworksum inp timestep
          else acc2)
        acc)
    (fin 0)

/-- Line 157: `pmf = -gas_constant * temperature * log( numerator / denominator / numtraj )`,
one entry. -/
noncomputable def pmf (inp : EstimatorInput) (rnum : ℕ) : Dbl :=
  -gas_constant * inp.temperature
    * Dbl.log (numerator inp rnum / denominator inp rnum / Dbl.ofInt inp.numtraj)

/-- Truncation of a real toward zero. -/
noncomputable def truncR (x : ℝ) : ℤ := if 0 ≤ x then ⌊x⌋ else -⌊-x⌋

/-! ## Failures -/

/-- The ways a run ends abnormally: an exception nobody catches, or behaviour the
language leaves undefined (out-of-range index, uncheckable conversion). -/
inductive Fatal where
  /-- The exception `std::out_of_range` (from `substr`, `stoi`, `stod`). -/
  | outOfRange
  /-- The exception `std::invalid_argument` (from `stoi`, `stod`). -/
  | invalidArgument
  /-- Line 95: `throw colvarsconffile`. -/
  | confNotOpen
  /-- Line 99: integer division by zero. -/
  | divisionByZero
  /-- An `int` result outside the 32-bit range. -/
  | intOverflow
  /-- An `Eigen` array constructed with a negative size. -/
  | negativeSize
  /-- An `Eigen` coefficient access outside the allocated shape. -/
  | indexOutOfBounds
  /-- Lines 122-124: the message printed, and `throw timestep`. -/
  | incompleteTrajectory (message : String) (timestep : ℕ)
  /-- Lines 134-135: the message printed, and `throw trajnum`. -/
  | trajectoryCount (message : String) (trajnum : ℕ)
  /-- Line 169: `throw pmffile`. -/
  | pmfNotOpen
  deriving DecidableEq, Repr

/-- Conversion of a `double` to `int` (line 140): truncation toward zero, undefined
when the truncated value does not fit 32 bits or the double is not finite. -/
noncomputable def toInt32 : Dbl → Except Fatal ℤ
  | fin x => if -2147483648 ≤ truncR x ∧ truncR x ≤ 2147483647 then .ok (truncR x)
             else .error .intOverflow
  | _ => .error .intOverflow

/-- Line 140: `int rsteps = (rend - rbegin) / rstepsize + 1`. -/
noncomputable def rsteps (rbegin rend rstepsize : Dbl) : Except Fatal ℤ :=
  toInt32 ((rend - rbegin) / rstepsize + Dbl.ofInt 1)

/-! ## Strings -/

/-- The call `s.substr(pos, len)`; `pos = none` and `len = none` stand for `npos`.
Throws `std::out_of_range` when `pos > s.size()`. -/
def substr (s : List Char) (pos : Option ℕ) (len : Option ℕ) : Except Fatal (List Char) :=
  match pos with
  | none => .error .outOfRange
  | some p =>
    if p > s.length then .error .outOfRange
    else match len with
      | none => .ok (s.drop p)
      | some n => .ok ((s.drop p).take n)

/-- The call `s.find_first_not_of(c)`; `none` is `npos`. -/
def find_first_not_of (s : List Char) (c : Char) : Option ℕ :=
  let i := s.findIdx (fun x => x != c)
  if i < s.length then some i else none

/-- The call `s.find_first_of(c)`; `none` is `npos`. -/
def find_first_of (s : List Char) (c : Char) : Option ℕ :=
  let i := s.findIdx (fun x => x == c)
  if i < s.length then some i else none

/-- The library functions the program calls to read numbers: `std::stoi`, `std::stod`. -/
structure Lib where
  stoi : List Char → Except Fatal ℤ
  stod : List Char → Except Fatal Dbl

/-! ## Files -/

/-- The state of the file system as the run sees it: `stat` succeeding on a path,
an input stream opening on a path (with the lines `getline` then yields), and an
output stream opening on a path. -/
structure FileSystem where
  stat : String → Bool
  read : String → Option (List (List Char))
  create : String → Bool

/-- The directory name `"traj" + std::to_string(trajid)`. -/
def trajDir (trajid : ℕ) : String := "traj" ++ toString trajid

/-- The sample file name `trajN/{jobname}_trajN.colvars.traj`. -/
def trajPath (jobname : String) (trajid : ℕ) : String :=
  "traj" ++ toString trajid ++ "/" ++ jobname ++ "_traj" ++ toString trajid ++ ".colvars.traj"

/-- The configuration file name `traj1/{jobname}_traj1.colvars.conf`. -/
def confPath (jobname : String) : String :=
  "traj1/" ++ jobname ++ "_traj1.colvars.conf"

/-! ## Discovery (`// counting traj directories`, `// counting completed trajectories`) -/

/-- Lines 52-54: the loop `while (!stat("traj" + to_string(maxtraj + 1))) maxtraj++`,
run for at most `fuel` iterations; `none` when the fuel runs out. -/
def countTrajDirs (fs : FileSystem) : (fuel : ℕ) → (maxtraj : ℕ) → Option ℕ
  | 0, _ => none
  | fuel + 1, maxtraj =>
    if fs.stat (trajDir (maxtraj + 1)) then countTrajDirs fs fuel (maxtraj + 1)
    else some maxtraj

/-- Lines 50-55: `maxtraj` after directory counting.  The counter is a 32-bit `int`:
the loop can be entered at most `2^31 - 1` times before it overflows. -/
def discoverMaxtraj (fs : FileSystem) (maxtraj : ℤ) : Except Fatal ℤ :=
  if maxtraj = 0 then
    match countTrajDirs fs 2147483647 0 with
    | some m => .ok (m : ℤ)
    | none => .error .intOverflow
  else .ok maxtraj

/-- Lines 58-65: `numtraj`, the number of `trajid` in `[1, maxtraj]` whose sample
file passes `stat`. -/
def countCompleted (fs : FileSystem) (jobname : String) (maxtraj : ℤ) : ℕ :=
  ((List.range maxtraj.toNat).filter (fun k => fs.stat (trajPath jobname (k + 1)))).length

/-! ## Configuration reader (`// read colvars conf file`) -/

/-- The five locals `cvfreq`, `rbegin`, `rend`, `numsteps`, `force_constant`. -/
structure Schedule where
  cvfreq : ℤ
  rbegin : Dbl
  rend : Dbl
  numsteps : ℤ
  force_constant : Dbl

/-- Lines 77-91: the body of the `getline` loop on one line. -/
def confLine (lib : Lib) (s : Schedule) (line : List Char) : Except Fatal Schedule :=
  if line.length > 0 then do
    let line ← substr line (find_first_not_of line ' ') none
    let line ← substr line (some 0) (find_first_of line '#')
    if (← substr line (some 0) (some 20)) = "colvarstrajfrequency".toList then do
      let v ← lib.stoi (← substr line (some 21) none)
      pure { s with cvfreq := v }
    else if (← substr line (some 0) (some 13)) = "forceconstant".toList then do
      let v ← lib.stod (← substr line (some 14) none)
      pure { s with force_constant := v }
    else if (← substr line (some 0) (some 7)) = "centers".toList then do
      let v ← lib.stod (← substr line (some 8) none)
      pure { s with rbegin := v }
    else if (← substr line (some 0) (some 13)) = "targetcenters".toList then do
      let v ← lib.stod (← substr line (some 14) none)
      pure { s with rend := v }
    else if (← substr line (some 0) (some 14)) = "targetnumsteps".toList then do
      let v ← lib.stoi (← substr line (some 15) none)
      pure { s with numsteps := v }
    else pure s
  else pure s

/-- Lines 76-92: the `getline` loop over the lines of the configuration file,
starting from the (indeterminate) initial values of the five locals. -/
def confLines (lib : Lib) : Schedule → List (List Char) → Except Fatal Schedule
  | s, [] => .ok s
  | s, line :: rest => do
    let s ← confLine lib s line
    confLines lib s rest

/-- Lines 73-96: open the configuration file and read it, or `throw colvarsconffile`. -/
def readConf (lib : Lib) (fs : FileSystem) (jobname : String) (init : Schedule) :
    Except Fatal Schedule :=
  match fs.read (confPath jobname) with
  | some lines => confLines lib init lines
  | none => .error .confNotOpen

/-- Line 99: `int timesteps = numsteps / cvfreq + 1` on 32-bit `int`. -/
def computeTimesteps (numsteps cvfreq : ℤ) : Except Fatal ℤ :=
  if cvfreq = 0 then .error .divisionByZero
  else
    let t := Int.tdiv numsteps cvfreq + 1
    if -2147483648 ≤ t ∧ t ≤ 2147483647 then .ok t else .error .intOverflow

/-! ## Trajectory loader (`// read colvars traj files`) -/

/-- The three arrays of lines 100-102. -/
structure Arrays where
  rlists : ℕ → ℕ → Dbl
  centerlist : ℕ → Dbl
  expworklists : ℕ → ℕ → Dbl

/-- The assignment `a(i, j) = v` on a two-dimensional array. -/
def set2 (a : ℕ → ℕ → Dbl) (i j : ℕ) (v : Dbl) : ℕ → ℕ → Dbl :=
  fun i2 j2 => if i2 = i ∧ j2 = j then v else a i2 j2

/-- The assignment `a(j) = v` on a one-dimensional array. -/
def set1 (a : ℕ → Dbl) (j : ℕ) (v : Dbl) : ℕ → Dbl :=
  fun j2 => if j2 = j then v else a j2

/-- Lines 112-119: the body of the `getline` loop on one line of a sample file;
returns the new `timestep` and arrays.  Each right-hand side is evaluated, then the
coefficient is written if its index lies inside the `numtraj × timesteps` shape. -/
def trajLine (lib : Lib) (numtraj timesteps trajnum : ℕ) (timestep : ℕ) (a : Arrays)
    (line : List Char) : Except Fatal (ℕ × Arrays) := do
  if (← substr line (some 0) (some 1)) ≠ "#".toList then
    let r ← lib.stod (← substr line (some 12) (some 24))
    if ¬ (trajnum < numtraj ∧ timestep < timesteps) then throw Fatal.indexOutOfBounds
    let a := { a with rlists := set2 a.rlists trajnum timestep r }
    let a ← (if trajnum = 0 then do
        let c ← lib.stod (← substr line (some 36) (some 23))
        if ¬ (timestep < timesteps) then throw Fatal.indexOutOfBounds
        pure { a with centerlist := set1 a.centerlist timestep c }
      else pure a : Except Fatal Arrays)
    let w ← lib.stod (← substr line (some 59) (some 22))
    if ¬ (trajnum < numtraj ∧ timestep < timesteps) then throw Fatal.indexOutOfBounds
    pure (timestep + 1, { a with expworklists := set2 a.expworklists trajnum timestep w })
  else pure (timestep, a)

/-- Lines 111-120: the `getline` loop over the lines of one sample file. -/
def trajLines (lib : Lib) (numtraj timesteps trajnum : ℕ) :
    ℕ → Arrays → List (List Char) → Except Fatal (ℕ × Arrays)
  | timestep, a, [] => .ok (timestep, a)
  | timestep, a, line :: rest => do
    let (timestep, a) ← trajLine lib numtraj timesteps trajnum timestep a line
    trajLines lib numtraj timesteps trajnum timestep a rest

/-- The state of the loop over `trajid`: `trajnum`, the arrays, and what has been
printed on standard output. -/
structure LoadState where
  trajnum : ℕ
  arrays : Arrays
  stdout : List String

/-- Lines 122-123: the diagnostic of an incomplete trajectory. -/
def incompleteMessage (jobname : String) (trajid : ℕ) : String :=
  " Problem encountered with incomplete trajectory in file traj" ++ toString trajid
    ++ "/" ++ jobname ++ "_traj" ++ toString trajid ++ ".colvars.traj"

/-- Lines 129-130: the diagnostic of a sample file that does not open. -/
def skippingMessage (jobname : String) (trajid : ℕ) : String :=
  " Problem encountered opening file traj" ++ toString trajid ++ "/" ++ jobname
    ++ "_traj" ++ toString trajid ++ ".colvars.traj\n Skipping..."

/-- Lines 106-131: the body of the loop over `trajid`. -/
def loadOne (lib : Lib) (fs : FileSystem) (jobname : String) (numtraj timesteps : ℕ)
    (st : LoadState) (trajid : ℕ) : Except Fatal LoadState :=
  match fs.read (trajPath jobname trajid) with
  | some lines => do
    let (timestep, a) ← trajLines lib numtraj timesteps st.trajnum 0 st.arrays lines
    if timestep ≠ timesteps then
      throw (Fatal.incompleteTrajectory (incompleteMessage jobname trajid) timestep)
    pure { st with trajnum := st.trajnum + 1, arrays := a }
  | none => pure { st with stdout := st.stdout ++ [skippingMessage jobname trajid] }

/-- Lines 105-132: the loop over the given values of `trajid`. -/
def loadLoop (lib : Lib) (fs : FileSystem) (jobname : String) (numtraj timesteps : ℕ) :
    LoadState → List ℕ → Except Fatal LoadState
  | st, [] => .ok st
  | st, trajid :: rest => do
    let st ← loadOne lib fs jobname numtraj timesteps st trajid
    loadLoop lib fs jobname numtraj timesteps st rest

/-- Lines 103-137: the loader, from freshly allocated arrays `init`: the loop over
`trajid = 1 .. maxtraj`, then the check of `trajnum` against `numtraj`. -/
def loadTrajectories (lib : Lib) (fs : FileSystem) (jobname : String) (maxtraj : ℤ)
    (numtraj timesteps : ℕ) (init : Arrays) : Except Fatal LoadState := do
  let st ← loadLoop lib fs jobname numtraj timesteps ⟨0, init, []⟩
    (List.range' 1 maxtraj.toNat)
  if st.trajnum ≠ numtraj then
    throw (Fatal.trajectoryCount " Problem with number of trajectories" st.trajnum)
  pure st

/-! ## Writer and the whole run -/

/-- What the command line gives: `jobname`, and `maxtraj`, `rstepsize`,
`temperature` (defaults `0`, `0.1`, `310`). -/
structure Args where
  jobname : String
  maxtraj : ℤ
  rstepsize : Dbl
  temperature : Dbl

/-- The values of storage that is read before the program assigns it: the five
schedule locals and the contents of the freshly allocated arrays. -/
structure Indeterminate where
  schedule : Schedule
  arrays : Arrays

/-- A line written to the pmf file: line 162, line 163, or one pass of line 165. -/
inductive PmfLine where
  | title (jobname : String) (numtraj : ℕ)
  | columns
  | row (r : Dbl) (G : Dbl)

/-- The text of a line of the pmf file, `fmt` being the formatting of a `double` by
`operator<<`. -/
def PmfLine.text (fmt : Dbl → String) : PmfLine → String
  | .title jobname numtraj => "# " ++ jobname ++ " " ++ toString numtraj ++ "-trajectory pmf"
  | .columns => "# r (Å), G (kcal/mol)"
  | .row r G => fmt r ++ "," ++ fmt G

/-- What a run that ends normally leaves: the lines printed on standard output and
the lines of the file `{jobname}.pmf`. -/
structure Output where
  stdout : List String
  pmffile : List PmfLine

/-- Lines 162-166: the lines written to the pmf file. -/
noncomputable def pmfLines (jobname : String) (inp : EstimatorInput) (rsteps : ℕ) :
    List PmfLine :=
  .title jobname inp.numtraj :: .columns
    :: (List.range rsteps).map (fun (rnum : ℕ) =>
          .row (inp.rbegin + Dbl.ofInt rnum * inp.rstepsize) (pmf inp rnum))

/-- The size of an `Eigen` array under construction: a negative size is fatal. -/
def checkSize (n : ℤ) : Except Fatal ℕ :=
  if n < 0 then .error .negativeSize else .ok n.toNat

/-- Lines 160-170: open the pmf file and write it, or `throw pmffile`. -/
noncomputable def writePmf (fs : FileSystem) (jobname : String) (stdout : List String)
    (inp : EstimatorInput) (rsteps : ℕ) : Except Fatal Output :=
  if fs.create (jobname ++ ".pmf") then
    .ok { stdout := stdout, pmffile := pmfLines jobname inp rsteps }
  else .error .pmfNotOpen

/-- The function `main` from line 49 on (after argument parsing). -/
noncomputable def main (lib : Lib) (fs : FileSystem) (ind : Indeterminate) (args : Args) :
    Except Fatal Output := do
  let maxtraj ← discoverMaxtraj fs args.maxtraj
  let numtraj := countCompleted fs args.jobname maxtraj
  let sched ← readConf lib fs args.jobname ind.schedule
  let timesteps ← computeTimesteps sched.numsteps sched.cvfreq
  let timesteps ← checkSize timesteps
  let st ← loadTrajectories lib fs args.jobname maxtraj numtraj timesteps ind.arrays
  let rsteps ← rsteps sched.rbegin sched.rend args.rstepsize
  let rsteps ← checkSize rsteps
  writePmf fs args.jobname st.stdout
    { numtraj := numtraj, timesteps := timesteps, rlists := st.arrays.rlists,
      centerlist := st.arrays.centerlist, worklists := st.arrays.expworklists,
      force_constant := sched.force_constant, rbegin := sched.rbegin,
      rstepsize := args.rstepsize, temperature := args.temperature }
    rsteps

/-! ## A library for plain decimal numerals, and example runs -/

/-- The characters `isspace` accepts. -/
def isSpaceChar (c : Char) : Bool := c.toNat = 32 || (9 ≤ c.toNat && c.toNat ≤ 13)

/-- The value of a run of decimal digits. -/
def natOfDigits (ds : List Char) : ℕ := ds.foldl (fun acc c => 10 * acc + (c.toNat - 48)) 0

/-- An optional sign at the head of a numeral: whether it is `-`, and the rest. -/
def readSign : List Char → Bool × List Char
  | '-' :: rest => (true, rest)
  | '+' :: rest => (false, rest)
  | s => (false, s)

/-- The function `std::stoi` on plain decimal numerals: leading blanks, an optional
sign, digits; what follows the digits is ignored. -/
def plainStoi (s : List Char) : Except Fatal ℤ :=
  let (negative, s) := readSign (s.dropWhile isSpaceChar)
  let ds := s.takeWhile Char.isDigit
  if ds = [] then .error .invalidArgument
  else
    let v : ℤ := if negative then -(natOfDigits ds : ℤ) else (natOfDigits ds : ℤ)
    if -2147483648 ≤ v ∧ v ≤ 2147483647 then .ok v else .error .outOfRange

/-- The sign, the digits (integer part followed by fraction) and the number of
fraction digits of a plain decimal numeral: leading blanks, an optional sign, digits
with an optional fraction; what follows is ignored. -/
def parseDecimal (s : List Char) : Option (Bool × ℕ × ℕ) :=
  let (negative, s) := readSign (s.dropWhile isSpaceChar)
  let ip := s.takeWhile Char.isDigit
  let fp := match s.dropWhile Char.isDigit with
    | '.' :: rest => rest.takeWhile Char.isDigit
    | _ => []
  if ip = [] ∧ fp = [] then none
  else some (negative, natOfDigits (ip ++ fp), fp.length)

/-- The real number with the given sign, digits and number of fraction digits. -/
noncomputable def decimal (negative : Bool) (digits scale : ℕ) : ℝ :=
  (if negative then -1 else 1) * ((digits : ℝ) / (10 : ℝ) ^ scale)

/-- The function `std::stod` on plain decimal numerals, the value being exact.
Exponents, hexadecimal numerals, `inf` and `nan` are not recognised. -/
noncomputable def plainStod (s : List Char) : Except Fatal Dbl :=
  match parseDecimal s with
  | none => .error .invalidArgument
  | some (negative, digits, scale) => .ok (fin (decimal negative digits scale))

/-- The library reading plain decimal numerals. -/
noncomputable def plainLib : Lib := { stoi := plainStoi, stod := plainStod }

/-- The configuration file of scenario S1. -/
def confS1 : List (List Char) :=
  ["colvarstrajfrequency 1".toList, "forceconstant 10".toList, "centers 0.0".toList,
   "targetcenters 1.0".toList, "targetnumsteps 1".toList]

/-- Storage that happens to hold zeros before it is assigned. -/
def zeroStorage : Indeterminate :=
  { schedule := { cvfreq := 0, rbegin := fin 0, rend := fin 0, numsteps := 0,
                  force_constant := fin 0 },
    arrays := { rlists := fun _ _ => fin 0, centerlist := fun _ => fin 0,
                expworklists := fun _ _ => fin 0 } }

/-- A directory `traj1` holding the configuration file of S1 and no sample file. -/
def fsNoSamples : FileSystem :=
  { stat := fun p => p = "traj1" || p = "traj1/x_traj1.colvars.conf",
    read := fun p => if p = "traj1/x_traj1.colvars.conf" then some confS1 else none,
    create := fun _ => true }

/-- The command line `analyzesmd -s 0.5 -T 310 x`. -/
noncomputable def argsS1 : Args :=
  { jobname := "x", maxtraj := 0, rstepsize := fin (1 / 2), temperature := fin 310 }

/-- A data line of a sample file: step 0, then `r = 0.0`, centre `0.0`, work `0.0` in
the columns `[12,36)`, `[36,59)`, `[59,81)`. -/
def dataLine0 : List Char :=
  "           0                     0.0                    0.0                   0.0".toList

/-- A data line of a sample file: step 1, then `r = 1.0`, centre `1.0`, work `0.0`. -/
def dataLine1 : List Char :=
  "           1                     1.0                    1.0                   0.0".toList

/-- A sample file with one header line and the given data lines, as
`traj1/x_traj1.colvars.traj`, next to the configuration file of S1. -/
def fsOneSample (dataLines : List (List Char)) : FileSystem :=
  { stat := fun p => p = "traj1" || p = "traj1/x_traj1.colvars.conf"
      || p = "traj1/x_traj1.colvars.traj",
    read := fun p =>
      if p = "traj1/x_traj1.colvars.conf" then some confS1
      else if p = "traj1/x_traj1.colvars.traj" then
        some ("#       step         r                       d_r                    W_r".toList
          :: dataLines)
      else none,
    create := fun _ => true }

/-! ## Parts of the configuration reader and of the loader, named -/

/-- Lines 78-79: the text of a configuration line once leading spaces are removed and
the line is cut at the first `#`. -/
def confText (line : List Char) : Except Fatal (List Char) := do
  let line ← substr line (find_first_not_of line ' ') none
  substr line (some 0) (find_first_of line '#')

/-- Lines 80-90: the keyword tests on the text `t` of a configuration line. -/
def confAction (lib : Lib) (s : Schedule) (t : List Char) : Except Fatal Schedule :=
  if t.take 20 = "colvarstrajfrequency".toList then do
    let v ← lib.stoi (← substr t (some 21) none)
    pure { s with cvfreq := v }
  else if t.take 13 = "forceconstant".toList then do
    let v ← lib.stod (← substr t (some 14) none)
    pure { s with force_constant := v }
  else if t.take 7 = "centers".toList then do
    let v ← lib.stod (← substr t (some 8) none)
    pure { s with rbegin := v }
  else if t.take 13 = "targetcenters".toList then do
    let v ← lib.stod (← substr t (some 14) none)
    pure { s with rend := v }
  else if t.take 14 = "targetnumsteps".toList then do
    let v ← lib.stoi (← substr t (some 15) none)
    pure { s with numsteps := v }
  else pure s

/-- Whether the text of a configuration line begins with the keyword `kw`. -/
def hasKeyword (kw : List Char) (line : List Char) : Bool :=
  match confText line with
  | .ok t => t.take kw.length == kw
  | .error _ => false

/-- Line 112: whether a line of a sample file is a data line, `line.substr(0, 1) != "#"`. -/
def isDataLine (line : List Char) : Bool := line.take 1 != ['#']

/-- The data lines of a sample file, in order. -/
def dataLines (lines : List (List Char)) : List (List Char) := lines.filter isDataLine

/-- Line 113: the reaction-coordinate column, `std::stod(line.substr(12, 24))`. -/
def rColumn (lib : Lib) (line : List Char) : Except Fatal Dbl := do
  lib.stod (← substr line (some 12) (some 24))

/-- Line 115: the guiding-centre column, `std::stod(line.substr(36, 23))`. -/
def centreColumn (lib : Lib) (line : List Char) : Except Fatal Dbl := do
  lib.stod (← substr line (some 36) (some 23))

/-- Line 117: the work column, `std::stod(line.substr(59, 22))`. -/
def workColumn (lib : Lib) (line : List Char) : Except Fatal Dbl := do
  lib.stod (← substr line (some 59) (some 22))

/-- The lines of the first sample file that opens, among the given values of `trajid`
taken in order. -/
def firstLoaded (fs : FileSystem) (jobname : String) : List ℕ → Option (List (List Char))
  | [] => none
  | trajid :: rest =>
    match fs.read (trajPath jobname trajid) with
    | some lines => some lines
    | none => firstLoaded fs jobname rest

/-- The header line of the example sample files. -/
def headerLine : List Char :=
  "#       step         r                       d_r                    W_r".toList

/-- A data line of a sample file: step 0, then `r = 0.5`, centre `0.0`, work `0.0`. -/
def dataLineHalf : List Char :=
  "           0                     0.5                    0.0                   0.0".toList

/-- Directories `traj1` and `traj2`; `traj1` holds the configuration file of S1 and no
sample file, `traj2` holds a sample file with the two data lines of S1. -/
def fsSecondOnly : FileSystem :=
  { stat := fun p => p = "traj1" || p = "traj2" || p = "traj1/x_traj1.colvars.conf"
      || p = "traj2/x_traj2.colvars.traj",
    read := fun p =>
      if p = "traj1/x_traj1.colvars.conf" then some confS1
      else if p = "traj2/x_traj2.colvars.traj" then some [headerLine, dataLine0, dataLine1]
      else none,
    create := fun _ => true }

/-- Scenario S2: directories `traj1`, `traj2`, `traj3`; the sample file exists in
`traj1` and in `traj3` only. -/
def fsS2 : FileSystem :=
  { stat := fun p => p = "traj1" || p = "traj2" || p = "traj3"
      || p = "traj1/x_traj1.colvars.conf" || p = "traj1/x_traj1.colvars.traj"
      || p = "traj3/x_traj3.colvars.traj",
    read := fun p =>
      if p = "traj1/x_traj1.colvars.conf" then some confS1
      else if p = "traj1/x_traj1.colvars.traj" then some [headerLine, dataLine0, dataLine1]
      else if p = "traj3/x_traj3.colvars.traj" then some [headerLine, dataLineHalf, dataLine1]
      else none,
    create := fun _ => true }

/-- The configuration file of scenario S1 without its `targetnumsteps` line. -/
def confNoNumsteps : List (List Char) :=
  ["colvarstrajfrequency 1".toList, "forceconstant 10".toList, "centers 0.0".toList,
   "targetcenters 1.0".toList]

/-- A directory `traj1` whose configuration file lacks the `targetnumsteps` line. -/
def fsNoNumsteps : FileSystem :=
  { stat := fun p => p = "traj1" || p = "traj1/x_traj1.colvars.conf",
    read := fun p => if p = "traj1/x_traj1.colvars.conf" then some confNoNumsteps else none,
    create := fun _ => true }

/-! ## The estimator over the reals

The closed forms the estimator computes when every loaded value is an ordinary
real number; `RealInput.toInput` feeds such values to the program. -/

/-- Estimator inputs all of whose doubles are finite. -/
structure RealInput where
  numtraj : ℕ
  timesteps : ℕ
  r : ℕ → ℕ → ℝ
  c : ℕ → ℝ
  work : ℕ → ℕ → ℝ
  k : ℝ
  rbegin : ℝ
  dr : ℝ
  T : ℝ

/-- The program input holding the values of a `RealInput`. -/
def RealInput.toInput (ri : RealInput) : EstimatorInput :=
  { numtraj := ri.numtraj, timesteps := ri.timesteps,
    rlists := fun i t => fin (ri.r i t), centerlist := fun t => fin (ri.c t),
    worklists := fun i t => fin (ri.work i t), force_constant := fin ri.k,
    rbegin := fin ri.rbegin, rstepsize := fin ri.dr, temperature := fin ri.T }

/-- The input with the constant `k` added to every work sample. -/
def RealInput.shiftWork (ri : RealInput) (k : ℝ) : RealInput :=
  { ri with work := fun i t => ri.work i t + k }

/-- The gas constant as a real number. -/
noncomputable def gasR : ℝ := 8.3144626 / 4184

/-- Real form of `expworklists`: `exp(-work / gas_constant / T)`. -/
noncomputable def expwR (ri : RealInput) (i t : ℕ) : ℝ :=
  Real.exp (-(ri.work i t) / gasR / ri.T)

/-- Real form of `expworksum`: the sum of `expwR` over the trajectories. -/
noncomputable def sumwR (ri : RealInput) (t : ℕ) : ℝ :=
  ∑ i in Finset.range ri.numtraj, expwR ri i t

/-- Real form of the grid point `rbegin + rnum * rstepsize`. -/
def gridR (ri : RealInput) (j : ℕ) : ℝ := ri.rbegin + (j : ℝ) * ri.dr

/-- Real form of `expv`: the Gaussian kernel `exp(-(k/2) (r - c[t])^2 / gas_constant / T)`. -/
noncomputable def kernelR (ri : RealInput) (j t : ℕ) : ℝ :=
  Real.exp (-ri.k / 2 * (gridR ri j - ri.c t) ^ 2 / gasR / ri.T)

/-- Real form of the window test: sample `(i, t)` lies within `dr/2` of grid point `j`. -/
def inBinR (ri : RealInput) (j i t : ℕ) : Prop := |ri.r i t - gridR ri j| < ri.dr / 2

noncomputable instance (ri : RealInput) (j i t : ℕ) : Decidable (inBinR ri j i t) :=
  Classical.propDecidable _

/-- Real form of `denominator`. -/
noncomputable def denomR (ri : RealInput) (j : ℕ) : ℝ :=
  ∑ t in Finset.range ri.timesteps, kernelR ri j t / sumwR ri t

/-- Real form of `numerator`. -/
noncomputable def numerR (ri : RealInput) (j : ℕ) : ℝ :=
  ∑ t in Finset.range ri.timesteps, ∑ i in Finset.range ri.numtraj,
    if inBinR ri j i t then expwR ri i t / sumwR ri t else 0

/-- Grid point `j` is visited: some sample of some trajectory lies in its bin. -/
def visited (ri : RealInput) (j : ℕ) : Prop :=
  ∃ i t, i < ri.numtraj ∧ t < ri.timesteps ∧ inBinR ri j i t

/-- Real form of `pmf`: `-gas_constant T ln(numer / denom / numtraj)`. -/
noncomputable def pmfR (ri : RealInput) (j : ℕ) : ℝ :=
  -gasR * ri.T * Real.log (numerR ri j / denomR ri j / (ri.numtraj : ℝ))

/-- The inverse thermal energy of the specification, `β = 1/(R_gc T)`. -/
noncomputable def betaR (ri : RealInput) : ℝ := 1 / (gasR * ri.T)

/-- The Gaussian guiding kernel as the specification writes it:
`G_t(r) = exp(-(k/2) (r - c[t])^2 β)` at `r = r_grid[j]`. -/
noncomputable def specKernel (ri : RealInput) (j t : ℕ) : ℝ :=
  Real.exp (-(ri.k / 2) * (gridR ri j - ri.c t) ^ 2 * betaR ri)

/-- The number of sample indices `t` of trajectory 0 with
`|r[0,t] - r_grid[j]| < dr/2`. -/
noncomputable def binCount0 (ri : RealInput) (j : ℕ) : ℕ :=
  ((Finset.range ri.timesteps).filter (fun t => |ri.r 0 t - gridR ri j| < ri.dr / 2)).card

/-- Scenario S1: one trajectory, two samples `r = (0, 1)`, centres `(0, 1)`, work
`(0, 0)`, force constant 10, grid from 0 with step 0.5, temperature 310. -/
noncomputable def scenarioS1 : RealInput :=
  { numtraj := 1, timesteps := 2, r := fun _ t => (t : ℝ), c := fun t => (t : ℝ),
    work := fun _ _ => 0, k := 10, rbegin := 0, dr := 1 / 2, T := 310 }

/-- One trajectory with a single sample at the centre and work 1 (temperature 1). -/
noncomputable def unitWorkRun : RealInput :=
  { numtraj := 1, timesteps := 1, r := fun _ _ => 0, c := fun _ => 0,
    work := fun _ _ => 1, k := 1, rbegin := 0, dr := 1, T := 1 }

/-- An input whose only sample sits at 1/4, the midpoint between grid points 0 and 1/2. -/
noncomputable def midpointRun : RealInput :=
  { numtraj := 1, timesteps := 1, r := fun _ _ => 1 / 4, c := fun _ => 0,
    work := fun _ _ => 0, k := 10, rbegin := 0, dr := 1 / 2, T := 310 }

/-- The input whose trajectory rows (of `r` and of the work) are those of `ri`
rearranged by `σ`: row `i` of the result is row `σ i` of `ri`. -/
def RealInput.permute (ri : RealInput) (σ : Equiv.Perm ℕ) : RealInput :=
  { ri with r := fun i t => ri.r (σ i) t, work := fun i t => ri.work (σ i) t }

/-- Two trajectories of one sample each: `r = 0` with work 0, and `r = 1` with work 1. -/
noncomputable def twoTrajRun : RealInput :=
  { numtraj := 2, timesteps := 1, r := fun i _ => (i : ℝ), c := fun _ => 0,
    work := fun i _ => (i : ℝ), k := 1, rbegin := 0, dr := 1, T := 310 }

/-! # Theorems -/

section DblLemmas

@[simp]
theorem Dbl.fin_add (x y : ℝ) : (fin x + fin y : Dbl) = fin (x + y) := rfl

@[simp]
theorem Dbl.fin_sub (x y : ℝ) : (fin x - fin y : Dbl) = fin (x - y) := by
  show Dbl.add (fin x) (Dbl.neg (fin y)) = _
  simp [Dbl.add, Dbl.neg, sub_eq_add_neg]

@[simp]
theorem Dbl.fin_mul (x y : ℝ) : (fin x * fin y : Dbl) = fin (x * y) := rfl

@[simp]
theorem Dbl.fin_neg (x : ℝ) : (-fin x : Dbl) = fin (-x) := rfl

theorem Dbl.fin_div (x : ℝ) {y : ℝ} (hy : y ≠ 0) : (fin x / fin y : Dbl) = fin (x / y) := by
  show Dbl.div (fin x) (fin y) = _
  simp [Dbl.div, hy]

@[simp]
theorem Dbl.fin_div_two (x : ℝ) : (fin x / fin 2 : Dbl) = fin (x / 2) :=
  Dbl.fin_div x two_ne_zero

@[simp]
theorem Dbl.exp_fin (x : ℝ) : Dbl.exp (fin x) = fin (Real.exp x) := rfl

@[simp]
theorem Dbl.pow2_fin (x : ℝ) : Dbl.pow2 (fin x) = fin (x ^ 2) := rfl

@[simp]
theorem Dbl.abs_fin (x : ℝ) : Dbl.abs (fin x) = fin |x| := rfl

@[simp]
theorem Dbl.lt_fin (x y : ℝ) : Dbl.lt (fin x) (fin y) ↔ x < y := Iff.rfl

@[simp]
theorem Dbl.ofInt_eq (n : ℤ) : Dbl.ofInt n = fin (n : ℝ) := rfl

theorem Dbl.fin_inj {x y : ℝ} (h : fin x = fin y) : x = y := by
  injection h

theorem gasR_pos : 0 < gasR := by
  unfold gasR
  norm_num

theorem gas_constant_eq : gas_constant = fin gasR := by
  unfold gas_constant gasR
  exact Dbl.fin_div _ (by norm_num)

end DblLemmas

section Refinement

theorem gasR_ne : gasR ≠ 0 := ne_of_gt gasR_pos

/-- A loop that adds a finite term at every step computes the finite sum. -/
theorem foldl_fin_sum (l : List ℕ) (step : Dbl → ℕ → Dbl) (h : ℕ → ℝ)
    (hstep : ∀ a : ℝ, ∀ i ∈ l, step (fin a) i = fin (a + h i)) (a : ℝ) :
    l.foldl step (fin a) = fin (a + (l.map h).sum) := by
  induction l generalizing a with
  | nil => simp
  | cons x xs ih =>
    simp only [List.foldl_cons, List.map_cons, List.sum_cons]
    rw [hstep a x (List.mem_cons_self _ _)]
    rw [ih (fun b i hi => hstep b i (List.mem_cons_of_mem _ hi))]
    congr 1
    ring

theorem list_range_sum (n : ℕ) (h : ℕ → ℝ) :
    ((List.range n).map h).sum = ∑ i in Finset.range n, h i := by
  induction n with
  | zero => simp
  | succ n ih => simp [List.range_succ, Finset.sum_range_succ, ih]

/-- A loop over `0 .. n-1` that adds a finite term at every step computes the sum. -/
theorem foldl_range_fin (n : ℕ) (step : Dbl → ℕ → Dbl) (h : ℕ → ℝ)
    (hstep : ∀ a : ℝ, ∀ i, i < n → step (fin a) i = fin (a + h i)) (a : ℝ) :
    (List.range n).foldl step (fin a) = fin (a + ∑ i in Finset.range n, h i) := by
  rw [foldl_fin_sum (List.range n) step h (fun b i hi => hstep b i (List.mem_range.mp hi)) a,
    list_range_sum]

theorem expworklists_toInput (ri : RealInput) (hT : ri.T ≠ 0) (i t : ℕ) :
    expworklists ri.toInput i t = fin (expwR ri i t) := by
  simp only [expworklists, RealInput.toInput, gas_constant_eq, Dbl.fin_neg,
    Dbl.fin_div _ gasR_ne, Dbl.fin_div _ hT, Dbl.exp_fin, expwR]

theorem expworksum_toInput (ri : RealInput) (hT : ri.T ≠ 0) (t : ℕ) :
    expworksum ri.toInput t = fin (sumwR ri t) := by
  unfold expworksum
  rw [show (ri.toInput).numtraj = ri.numtraj from rfl]
  rw [foldl_range_fin ri.numtraj _ (fun i => expwR ri i t)
    (fun a i _ => by simp only [expworklists_toInput ri hT, Dbl.fin_add]) 0]
  simp [sumwR]

theorem gridPoint_toInput (ri : RealInput) (j : ℕ) :
    gridPoint ri.toInput j = fin (gridR ri j) := by
  simp [gridPoint, RealInput.toInput, gridR]

theorem expv_toInput (ri : RealInput) (hT : ri.T ≠ 0) (j t : ℕ) :
    expv ri.toInput (gridPoint ri.toInput j) t = fin (kernelR ri j t) := by
  rw [gridPoint_toInput]
  simp only [expv, RealInput.toInput, gas_constant_eq, Dbl.fin_neg, Dbl.fin_sub, Dbl.pow2_fin,
    Dbl.fin_div_two, Dbl.fin_mul, Dbl.fin_div _ gasR_ne, Dbl.fin_div _ hT, Dbl.exp_fin, kernelR]

theorem inWindow_toInput (ri : RealInput) (j i t : ℕ) :
    inWindow ri.toInput (gridPoint ri.toInput j) i t ↔ inBinR ri j i t := by
  rw [gridPoint_toInput]
  simp [inWindow, RealInput.toInput, inBinR]

theorem expwR_pos (ri : RealInput) (i t : ℕ) : 0 < expwR ri i t := Real.exp_pos _

theorem kernelR_pos (ri : RealInput) (j t : ℕ) : 0 < kernelR ri j t := Real.exp_pos _

theorem sumwR_pos (ri : RealInput) (hn : 1 ≤ ri.numtraj) (t : ℕ) : 0 < sumwR ri t := by
  unfold sumwR
  apply Finset.sum_pos (fun i _ => expwR_pos ri i t)
  exact ⟨0, Finset.mem_range.mpr hn⟩

theorem denominator_toInput (ri : RealInput) (hT : ri.T ≠ 0) (hn : 1 ≤ ri.numtraj) (j : ℕ) :
    denominator ri.toInput j = fin (denomR ri j) := by
  unfold denominator
  rw [show (ri.toInput).timesteps = ri.timesteps from rfl]
  rw [foldl_range_fin ri.timesteps _ (fun t => kernelR ri j t / sumwR ri t)
    (fun a t _ => by
      simp only [expv_toInput ri hT, expworksum_toInput ri hT,
        Dbl.fin_div _ (ne_of_gt (sumwR_pos ri hn t)), Dbl.fin_add]) 0]
  simp [denomR]

theorem numerator_toInput (ri : RealInput) (hT : ri.T ≠ 0) (hn : 1 ≤ ri.numtraj) (j : ℕ) :
    numerator ri.toInput j = fin (numerR ri j) := by
  unfold numerator
  rw [show (ri.toInput).timesteps = ri.timesteps from rfl,
    show (ri.toInput).numtraj = ri.numtraj from rfl]
  rw [foldl_range_fin ri.timesteps _
    (fun t => ∑ i in Finset.range ri.numtraj,
      if inBinR ri j i t then expwR ri i t / sumwR ri t else 0)
    (fun a t _ => by
      rw [foldl_range_fin ri.numtraj _
        (fun i => if inBinR ri j i t then expwR ri i t / sumwR ri t else 0)
        (fun b i _ => by
          by_cases hw : inBinR ri j i t
          · rw [if_pos ((inWindow_toInput ri j i t).mpr hw)]
            simp only [if_pos hw, expworklists_toInput ri hT, expworksum_toInput ri hT,
              Dbl.fin_div _ (ne_of_gt (sumwR_pos ri hn t)), Dbl.fin_add]
          · rw [if_neg (fun h => hw ((inWindow_toInput ri j i t).mp h))]
            simp only [if_neg hw, add_zero]) a]) 0]
  simp [numerR]

theorem numerR_nonneg (ri : RealInput) (hn : 1 ≤ ri.numtraj) (j : ℕ) : 0 ≤ numerR ri j := by
  unfold numerR
  refine Finset.sum_nonneg (fun t _ => Finset.sum_nonneg (fun i _ => ?_))
  split
  · exact le_of_lt (div_pos (expwR_pos ri i t) (sumwR_pos ri hn t))
  · exact le_refl 0

theorem numerR_pos (ri : RealInput) (j : ℕ) (hv : visited ri j) : 0 < numerR ri j := by
  obtain ⟨i, t, hi, ht, hb⟩ := hv
  have hn : 1 ≤ ri.numtraj := by omega
  unfold numerR
  have hinner : ∀ t2, 0 ≤ ∑ i2 in Finset.range ri.numtraj,
      (if inBinR ri j i2 t2 then expwR ri i2 t2 / sumwR ri t2 else 0) := by
    intro t2
    refine Finset.sum_nonneg (fun i2 _ => ?_)
    split
    · exact le_of_lt (div_pos (expwR_pos ri i2 t2) (sumwR_pos ri hn t2))
    · exact le_refl 0
  have hterm : 0 < ∑ i2 in Finset.range ri.numtraj,
      (if inBinR ri j i2 t then expwR ri i2 t / sumwR ri t else 0) := by
    have hle : (if inBinR ri j i t then expwR ri i t / sumwR ri t else 0)
        ≤ ∑ i2 in Finset.range ri.numtraj,
          (if inBinR ri j i2 t then expwR ri i2 t / sumwR ri t else 0) := by
      apply Finset.single_le_sum (f := fun i2 =>
        if inBinR ri j i2 t then expwR ri i2 t / sumwR ri t else 0)
      · intro i2 _
        split
        · exact le_of_lt (div_pos (expwR_pos ri i2 t) (sumwR_pos ri hn t))
        · exact le_refl 0
      · exact Finset.mem_range.mpr hi
    rw [if_pos hb] at hle
    exact lt_of_lt_of_le (div_pos (expwR_pos ri i t) (sumwR_pos ri hn t)) hle
  have hle2 := Finset.single_le_sum (f := fun t2 => ∑ i2 in Finset.range ri.numtraj,
      (if inBinR ri j i2 t2 then expwR ri i2 t2 / sumwR ri t2 else 0))
      (fun t2 _ => hinner t2) (Finset.mem_range.mpr ht)
  exact lt_of_lt_of_le hterm hle2

theorem denomR_pos (ri : RealInput) (hn : 1 ≤ ri.numtraj) (ht : 1 ≤ ri.timesteps) (j : ℕ) :
    0 < denomR ri j := by
  unfold denomR
  apply Finset.sum_pos (fun t _ => div_pos (kernelR_pos ri j t) (sumwR_pos ri hn t))
  exact ⟨0, Finset.mem_range.mpr ht⟩

/-- At a grid point where the argument of the logarithm is positive, the program's
`pmf` entry is the finite real `pmfR`. -/
theorem pmf_toInput (ri : RealInput) (hT : ri.T ≠ 0) (hn : 1 ≤ ri.numtraj)
    (ht : 1 ≤ ri.timesteps) (j : ℕ) (hnum : 0 < numerR ri j) :
    pmf ri.toInput j = fin (pmfR ri j) := by
  have hd := denomR_pos ri hn ht j
  have hnn : (0 : ℝ) < (ri.numtraj : ℝ) := by exact_mod_cast hn
  have hq : 0 < numerR ri j / denomR ri j / (ri.numtraj : ℝ) := div_pos (div_pos hnum hd) hnn
  unfold pmf
  rw [numerator_toInput ri hT hn, denominator_toInput ri hT hn, gas_constant_eq]
  rw [show (ri.toInput).numtraj = ri.numtraj from rfl, show (ri.toInput).temperature = fin ri.T from rfl]
  rw [Dbl.fin_div _ (ne_of_gt hd), Dbl.ofInt_eq, Int.cast_natCast, Dbl.fin_div _ (ne_of_gt hnn)]
  simp only [Dbl.log, if_pos hq, Dbl.fin_neg, Dbl.fin_mul, pmfR]

/-- At a grid point whose numerator is zero the program's `pmf` entry is `+inf`. -/
theorem pmf_toInput_unvisited (ri : RealInput) (hT : 0 < ri.T) (hn : 1 ≤ ri.numtraj)
    (ht : 1 ≤ ri.timesteps) (j : ℕ) (hnum : numerR ri j = 0) :
    pmf ri.toInput j = pinf := by
  have hd := denomR_pos ri hn ht j
  have hnn : (0 : ℝ) < (ri.numtraj : ℝ) := by exact_mod_cast hn
  unfold pmf
  rw [numerator_toInput ri (ne_of_gt hT) hn, denominator_toInput ri (ne_of_gt hT) hn,
    gas_constant_eq]
  rw [show (ri.toInput).numtraj = ri.numtraj from rfl, show (ri.toInput).temperature = fin ri.T from rfl]
  rw [Dbl.fin_div _ (ne_of_gt hd), Dbl.ofInt_eq, Int.cast_natCast, Dbl.fin_div _ (ne_of_gt hnn), hnum]
  have hpos : 0 < gasR * ri.T := mul_pos gasR_pos hT
  simp only [zero_div, Dbl.log, lt_irrefl, if_false, if_true, Dbl.fin_neg, Dbl.fin_mul]
  show Dbl.mul (fin (-gasR * ri.T)) ninf = pinf
  simp [Dbl.mul, Dbl.signedInf, hpos, not_lt_of_gt hpos]

end Refinement

section WorkShift

theorem expwR_shiftWork (ri : RealInput) (k : ℝ) (i t : ℕ) :
    expwR (ri.shiftWork k) i t = expwR ri i t * Real.exp (-k / gasR / ri.T) := by
  unfold expwR RealInput.shiftWork
  rw [← Real.exp_add]
  congr 1
  ring

theorem sumwR_shiftWork (ri : RealInput) (k : ℝ) (t : ℕ) :
    sumwR (ri.shiftWork k) t = sumwR ri t * Real.exp (-k / gasR / ri.T) := by
  unfold sumwR
  rw [Finset.sum_mul]
  exact Finset.sum_congr rfl (fun i _ => expwR_shiftWork ri k i t)

theorem weight_shiftWork (ri : RealInput) (k : ℝ) (i t : ℕ) :
    expwR (ri.shiftWork k) i t / sumwR (ri.shiftWork k) t = expwR ri i t / sumwR ri t := by
  rw [expwR_shiftWork, sumwR_shiftWork]
  exact mul_div_mul_right _ _ (ne_of_gt (Real.exp_pos _))

theorem numerR_shiftWork (ri : RealInput) (k : ℝ) (j : ℕ) :
    numerR (ri.shiftWork k) j = numerR ri j := by
  unfold numerR
  refine Finset.sum_congr rfl (fun t _ => Finset.sum_congr rfl (fun i _ => ?_))
  have hb : inBinR (ri.shiftWork k) j i t ↔ inBinR ri j i t := Iff.rfl
  by_cases h : inBinR ri j i t
  · rw [if_pos h, if_pos (hb.mpr h), weight_shiftWork]
  · rw [if_neg h, if_neg (fun h2 => h (hb.mp h2))]

theorem denomR_shiftWork (ri : RealInput) (k : ℝ) (j : ℕ) :
    denomR (ri.shiftWork k) j = denomR ri j / Real.exp (-k / gasR / ri.T) := by
  unfold denomR
  rw [Finset.sum_div]
  refine Finset.sum_congr rfl (fun t _ => ?_)
  rw [sumwR_shiftWork]
  have hk : kernelR (ri.shiftWork k) j t = kernelR ri j t := rfl
  rw [hk, ← div_div]

theorem visited_shiftWork (ri : RealInput) (k : ℝ) (j : ℕ) :
    visited (ri.shiftWork k) j ↔ visited ri j := Iff.rfl

/-- Adding `k` to every work sample adds exactly `k` to the real form of the pmf at
every visited grid point. -/
theorem pmfR_shiftWork (ri : RealInput) (k : ℝ) (hT : ri.T ≠ 0) (j : ℕ) (hv : visited ri j) :
    pmfR (ri.shiftWork k) j = pmfR ri j + k := by
  obtain ⟨i, t, hi, ht, hb⟩ := hv
  have hn : 1 ≤ ri.numtraj := by omega
  have hts : 1 ≤ ri.timesteps := by omega
  have hnum := numerR_pos ri j ⟨i, t, hi, ht, hb⟩
  have hden := denomR_pos ri hn hts j
  have hnn : (0 : ℝ) < (ri.numtraj : ℝ) := by exact_mod_cast hn
  have hE := Real.exp_pos (-k / gasR / ri.T)
  unfold pmfR
  rw [numerR_shiftWork, denomR_shiftWork]
  have hn2 : (ri.shiftWork k).numtraj = ri.numtraj := rfl
  have hT2 : (ri.shiftWork k).T = ri.T := rfl
  rw [hn2, hT2]
  have hre : numerR ri j / (denomR ri j / Real.exp (-k / gasR / ri.T)) / (ri.numtraj : ℝ)
      = numerR ri j / denomR ri j / (ri.numtraj : ℝ) * Real.exp (-k / gasR / ri.T) := by
    field_simp
  rw [hre, Real.log_mul (ne_of_gt (div_pos (div_pos hnum hden) hnn)) (ne_of_gt hE),
    Real.log_exp]
  have hg := gasR_ne
  field_simp
  ring

/-- The program's pmf entries before and after a constant work shift, at a visited
grid point: both finite, the second being the first plus `k`. -/
theorem pmf_shiftWork (ri : RealInput) (k : ℝ) (hT : ri.T ≠ 0) (j : ℕ) (hv : visited ri j) :
    pmf ri.toInput j = fin (pmfR ri j) ∧
      pmf (ri.shiftWork k).toInput j = fin (pmfR ri j + k) := by
  have hn : 1 ≤ ri.numtraj := by
    obtain ⟨i, t, hi, _, _⟩ := hv
    omega
  have hts : 1 ≤ ri.timesteps := by
    obtain ⟨i, t, _, ht, _⟩ := hv
    omega
  refine ⟨pmf_toInput ri hT hn hts j (numerR_pos ri j hv), ?_⟩
  rw [pmf_toInput (ri.shiftWork k) hT hn hts j
    (numerR_pos _ j ((visited_shiftWork ri k j).mpr hv)), pmfR_shiftWork ri k hT j hv]

end WorkShift

section Scenario

theorem scenarioS1_visited_zero : visited scenarioS1 0 := by
  refine ⟨0, 0, by decide, by decide, ?_⟩
  simp only [inBinR, gridR, scenarioS1]
  norm_num

theorem scenarioS1_visited_two : visited scenarioS1 2 := by
  refine ⟨0, 1, by decide, by decide, ?_⟩
  simp only [inBinR, gridR, scenarioS1]
  norm_num

theorem scenarioS1_unvisited_one (i t : ℕ) (_hi : i < scenarioS1.numtraj)
    (ht : t < scenarioS1.timesteps) : ¬ inBinR scenarioS1 1 i t := by
  have ht2 : t < 2 := ht
  simp only [inBinR, gridR, scenarioS1]
  interval_cases t
  · norm_num [abs_lt]
  · norm_num [abs_lt]

end Scenario

section Claims

theorem kernelR_eq_specKernel (ri : RealInput) (j t : ℕ) :
    kernelR ri j t = specKernel ri j t := by
  unfold kernelR specKernel betaR
  congr 1
  rw [div_div]
  ring

theorem expwR_eq_beta (ri : RealInput) (i t : ℕ) :
    expwR ri i t = Real.exp (-(betaR ri) * ri.work i t) := by
  unfold expwR betaR
  congr 1
  rw [div_div]
  ring

/-- C3 as stated fails: with one trajectory, one sample at the centre and work 1
(temperature 1), `denominator(0)` is not the plain sum of the Gaussian kernel. -/
theorem single_trajectory_denominator_counterexample :
    unitWorkRun.numtraj = 1 ∧
    denominator unitWorkRun.toInput 0
      ≠ fin (∑ t in Finset.range unitWorkRun.timesteps, specKernel unitWorkRun 0 t) := by
  refine ⟨rfl, ?_⟩
  have hT : unitWorkRun.T ≠ 0 := by norm_num [unitWorkRun]
  rw [denominator_toInput unitWorkRun hT (by norm_num [unitWorkRun])]
  intro h
  have h2 := Dbl.fin_inj h
  have hts : unitWorkRun.timesteps = 1 := rfl
  have hnt : unitWorkRun.numtraj = 1 := rfl
  simp only [denomR, sumwR, hts, hnt, Finset.sum_range_one, kernelR_eq_specKernel,
    expwR_eq_beta] at h2
  have hk : specKernel unitWorkRun 0 0 = 1 := by
    simp [specKernel, gridR, unitWorkRun]
  rw [hk] at h2
  have hE : Real.exp (-(betaR unitWorkRun) * unitWorkRun.work 0 0) = 1 := by
    have hpos := Real.exp_pos (-(betaR unitWorkRun) * unitWorkRun.work 0 0)
    rw [div_eq_iff (ne_of_gt hpos)] at h2
    linarith
  rw [Real.exp_eq_one_iff] at hE
  have hb : betaR unitWorkRun = 1 / gasR := by
    simp [betaR, unitWorkRun]
  have hw : unitWorkRun.work 0 0 = 1 := rfl
  rw [hb, hw] at hE
  have hg := gasR_pos
  have : 1 / gasR > 0 := by positivity
  linarith

/-- C3 amended (single-trajectory denominator): with exactly one trajectory and a
nonzero temperature, `denominator(j)` is the sum over timesteps of the Gaussian kernel
divided by `Z_t = exp(-β work[0,t])`; it is the plain sum of the kernel when the work
of the trajectory is zero at every timestep. -/
theorem single_trajectory_denominator (ri : RealInput) (h1 : ri.numtraj = 1) (hT : ri.T ≠ 0)
    (j : ℕ) :
    denominator ri.toInput j
        = fin (∑ t in Finset.range ri.timesteps,
            specKernel ri j t / Real.exp (-(betaR ri) * ri.work 0 t)) ∧
      ((∀ t, t < ri.timesteps → ri.work 0 t = 0) →
        denominator ri.toInput j = fin (∑ t in Finset.range ri.timesteps, specKernel ri j t)) := by
  have hn : 1 ≤ ri.numtraj := by omega
  have hd : denomR ri j = ∑ t in Finset.range ri.timesteps,
      specKernel ri j t / Real.exp (-(betaR ri) * ri.work 0 t) := by
    unfold denomR
    refine Finset.sum_congr rfl (fun t _ => ?_)
    simp only [sumwR, h1, Finset.sum_range_one, kernelR_eq_specKernel, expwR_eq_beta]
  rw [denominator_toInput ri hT hn, hd]
  refine ⟨rfl, fun hw => ?_⟩
  congr 1
  refine Finset.sum_congr rfl (fun t ht => ?_)
  rw [hw t (Finset.mem_range.mp ht)]
  simp

/-- Witness of the amended C3 on scenario S1 (whose work is zero) at grid point 0. -/
theorem single_trajectory_denominator_witness :
    scenarioS1.numtraj = 1 ∧ scenarioS1.T ≠ 0 ∧
    (∀ t, t < scenarioS1.timesteps → scenarioS1.work 0 t = 0) ∧
    denominator scenarioS1.toInput 0
      = fin (∑ t in Finset.range scenarioS1.timesteps, specKernel scenarioS1 0 t) :=
  ⟨rfl, by norm_num [scenarioS1], fun _ _ => rfl,
    (single_trajectory_denominator scenarioS1 rfl (by norm_num [scenarioS1]) 0).2
      (fun _ _ => rfl)⟩

theorem rsteps_fin (rb re dr : ℝ) (hdr : dr ≠ 0) :
    rsteps (fin rb) (fin re) (fin dr) = toInt32 (fin ((re - rb) / dr + 1)) := by
  unfold rsteps
  rw [Dbl.fin_sub, Dbl.fin_div _ hdr, Dbl.ofInt_eq, Dbl.fin_add]
  norm_num

theorem toInt32_fin (x : ℝ) (h : -2147483648 ≤ truncR x ∧ truncR x ≤ 2147483647) :
    toInt32 (fin x) = .ok (truncR x) := by
  show (if -2147483648 ≤ truncR x ∧ truncR x ≤ 2147483647 then Except.ok (truncR x)
    else Except.error Fatal.intOverflow) = _
  rw [if_pos h]

theorem truncR_add_one {x : ℝ} (hx : -1 ≤ x) : truncR (x + 1) = ⌊x⌋ + 1 := by
  unfold truncR
  rw [if_pos (by linarith), Int.floor_add_one]

theorem rsteps_eq_floor_add_one (rb re dr : ℝ) (hdr : 0 < dr) (hge : rb - dr ≤ re)
    (hfit : ⌊(re - rb) / dr⌋ + 1 ≤ 2147483647) :
    rsteps (fin rb) (fin re) (fin dr) = .ok (⌊(re - rb) / dr⌋ + 1) := by
  rw [rsteps_fin _ _ _ (ne_of_gt hdr)]
  have hx : -1 ≤ (re - rb) / dr := by
    rw [le_div_iff₀ hdr]
    linarith
  have hfl : (-1 : ℤ) ≤ ⌊(re - rb) / dr⌋ := by
    rw [Int.le_floor]
    exact_mod_cast hx
  rw [toInt32_fin _ (by rw [truncR_add_one hx]; exact ⟨by omega, hfit⟩), truncR_add_one hx]

/-- The other instance of scenario S5: `rend = 1.95` gives 20 grid points. -/
theorem rsteps_scenarioS5_short : rsteps (fin 0) (fin 1.95) (fin 0.1) = .ok 20 := by
  have hfl : ⌊((1.95 : ℝ) - 0) / 0.1⌋ = 19 := by
    rw [Int.floor_eq_iff]
    norm_num
  have h : rsteps (fin 0) (fin 1.95) (fin 0.1) = toInt32 (fin ((1.95 - 0) / 0.1 + 1)) :=
    rsteps_fin 0 1.95 0.1 (by norm_num)
  have ht : truncR ((1.95 - 0) / 0.1 + 1 : ℝ) = 20 := by
    rw [truncR_add_one (by norm_num), hfl]
    rfl
  rw [h, toInt32_fin _ (by rw [ht]; decide), ht]

/-- The numerator loops leave the accumulator at zero when no sample passes the
window test, whatever the other inputs are. -/
theorem numerator_unvisited (inp : EstimatorInput) (j : ℕ)
    (hno : ∀ i t, i < inp.numtraj → t < inp.timesteps → ¬ inWindow inp (gridPoint inp j) i t) :
    numerator inp j = fin 0 := by
  unfold numerator
  rw [foldl_range_fin inp.timesteps _ (fun _ => 0)
    (fun a t ht => by
      rw [foldl_range_fin inp.numtraj _ (fun _ => 0)
        (fun b i hi => by rw [if_neg (hno i t hi ht), add_zero]) a]
      simp) 0]
  simp

end Claims

section Run

theorem except_bind_ok {α β : Type} (a : α) (f : α → Except Fatal β) :
    (Except.ok a >>= f) = f a := rfl

theorem except_bind_error {α β : Type} (e : Fatal) (f : α → Except Fatal β) :
    ((Except.error e : Except Fatal α) >>= f) = Except.error e := rfl

/-- When no sample file of the listed trajectories opens, the loop over `trajid` loads
nothing: `trajnum` and the arrays are unchanged. -/
theorem loadLoop_none (lib : Lib) (fs : FileSystem) (jobname : String) (numtraj timesteps : ℕ)
    (ids : List ℕ) (hnone : ∀ trajid ∈ ids, fs.read (trajPath jobname trajid) = none)
    (st : LoadState) :
    ∃ msgs, loadLoop lib fs jobname numtraj timesteps st ids
      = .ok { st with stdout := msgs } := by
  induction ids generalizing st with
  | nil => exact ⟨st.stdout, rfl⟩
  | cons x xs ih =>
    obtain ⟨msgs, h⟩ := ih (fun k hk => hnone k (List.mem_cons_of_mem _ hk))
      { st with stdout := st.stdout ++ [skippingMessage jobname x] }
    refine ⟨msgs, ?_⟩
    have hx := hnone x (List.mem_cons_self _ _)
    simp only [loadLoop, loadOne, hx]
    exact h

theorem countCompleted_none (fs : FileSystem) (jobname : String) (maxtraj : ℤ)
    (hnone : ∀ trajid : ℕ, 1 ≤ trajid → (trajid : ℤ) ≤ maxtraj →
      fs.stat (trajPath jobname trajid) = false) :
    countCompleted fs jobname maxtraj = 0 := by
  unfold countCompleted
  rw [List.length_eq_zero, List.filter_eq_nil_iff]
  intro k hk
  rw [List.mem_range] at hk
  have : ((k + 1 : ℕ) : ℤ) ≤ maxtraj := by omega
  simp [hnone (k + 1) (by omega) this]

end Run

section RunClaims

/-- A run that finds no sample file ends normally once discovery, the configuration
reader and the two size computations succeed and the pmf file opens. -/
theorem main_no_samples (lib : Lib) (fs : FileSystem) (ind : Indeterminate) (args : Args) (maxtraj : ℤ)
    (sched : Schedule) (ts rs : ℤ)
    (hmax : discoverMaxtraj fs args.maxtraj = .ok maxtraj)
    (hnone : ∀ trajid : ℕ, 1 ≤ trajid → (trajid : ℤ) ≤ maxtraj →
      fs.stat (trajPath args.jobname trajid) = false ∧
      fs.read (trajPath args.jobname trajid) = none)
    (hconf : readConf lib fs args.jobname ind.schedule = .ok sched)
    (hts : computeTimesteps sched.numsteps sched.cvfreq = .ok ts) (hts0 : 0 ≤ ts)
    (hrs : rsteps sched.rbegin sched.rend args.rstepsize = .ok rs) (hrs0 : 0 ≤ rs)
    (hcreate : fs.create (args.jobname ++ ".pmf") = true) :
    ∃ out, main lib fs ind args = .ok out ∧
      out.pmffile.head? = some (.title args.jobname 0) ∧ out.pmffile.length = rs.toNat + 2 := by
  have hcount := countCompleted_none fs args.jobname maxtraj (fun k h1 h2 => (hnone k h1 h2).1)
  obtain ⟨msgs, hload⟩ := loadLoop_none lib fs args.jobname 0 ts.toNat
    (List.range' 1 maxtraj.toNat)
    (fun k hk => by
      rw [List.mem_range'_1] at hk
      exact (hnone k hk.1 (by omega)).2)
    ⟨0, ind.arrays, []⟩
  have hc1 : checkSize ts = .ok ts.toNat := by
    unfold checkSize
    rw [if_neg (by omega)]
  have hc2 : checkSize rs = .ok rs.toNat := by
    unfold checkSize
    rw [if_neg (by omega)]
  have hl : loadTrajectories lib fs args.jobname maxtraj 0 ts.toNat ind.arrays
      = .ok ⟨0, ind.arrays, msgs⟩ := by
    unfold loadTrajectories
    rw [hload]
    rfl
  have hmain : main lib fs ind args = .ok
      { stdout := msgs,
        pmffile := pmfLines args.jobname
          { numtraj := 0, timesteps := ts.toNat, rlists := ind.arrays.rlists,
            centerlist := ind.arrays.centerlist, worklists := ind.arrays.expworklists,
            force_constant := sched.force_constant, rbegin := sched.rbegin,
            rstepsize := args.rstepsize, temperature := args.temperature } rs.toNat } := by
    unfold main
    rw [hmax, except_bind_ok, hconf, except_bind_ok, hts, except_bind_ok, hc1, except_bind_ok,
      hcount, hl, except_bind_ok, hrs, except_bind_ok, hc2, except_bind_ok]
    unfold writePmf
    rw [hcreate, if_pos rfl]
  refine ⟨_, hmain, rfl, ?_⟩
  simp [pmfLines]

theorem fsNoSamples_none (trajid : ℕ) (h1 : 1 ≤ trajid) (h2 : (trajid : ℤ) ≤ 1) :
    fsNoSamples.stat (trajPath "x" trajid) = false ∧
      fsNoSamples.read (trajPath "x" trajid) = none := by
  have h : trajid = 1 := by omega
  subst h
  exact ⟨by decide, by decide⟩

theorem readConf_confS1 :
    readConf plainLib fsNoSamples "x" zeroStorage.schedule
      = .ok ⟨1, fin (decimal false 0 1), fin (decimal false 10 1), 1, fin (decimal false 10 0)⟩ :=
  rfl

theorem rsteps_scenarioS1 :
    rsteps (fin (decimal false 0 1)) (fin (decimal false 10 1)) (fin (1 / 2)) = .ok 3 := by
  have hfl : ⌊(decimal false 10 1 - decimal false 0 1) / (1 / 2)⌋ = 2 := by
    rw [Int.floor_eq_iff]
    norm_num [decimal]
  have h := rsteps_eq_floor_add_one (decimal false 0 1) (decimal false 10 1) (1 / 2)
    (by norm_num) (by norm_num [decimal]) (by rw [hfl]; decide)
  rw [hfl] at h
  exact h

/-- C7 as stated fails: with a directory `traj1` that holds the configuration file
of scenario S1 and no sample file, discovery gives `maxtraj = 1` and `numtraj = 0`,
and the run ends normally, writing a pmf file headed `# x 0-trajectory pmf` with
three rows. -/
theorem zero_trajectories_counterexample :
    (∀ trajid : ℕ, 1 ≤ trajid → (trajid : ℤ) ≤ 1 →
      fsNoSamples.stat (trajPath "x" trajid) = false ∧
      fsNoSamples.read (trajPath "x" trajid) = none) ∧
    discoverMaxtraj fsNoSamples 0 = .ok 1 ∧
    countCompleted fsNoSamples "x" 1 = 0 ∧
    ∃ out, main plainLib fsNoSamples zeroStorage argsS1 = .ok out ∧
      out.pmffile.head? = some (.title "x" 0) ∧ out.pmffile.length = 5 :=
  ⟨fsNoSamples_none, rfl, by decide,
    main_no_samples plainLib fsNoSamples zeroStorage argsS1 1 _ 2 3 rfl fsNoSamples_none
      readConf_confS1 rfl (by decide) rsteps_scenarioS1 (by decide) rfl⟩

/-- C7 amended (zero completed trajectories): when no sample file exists for any
`trajid` in `[1, maxtraj]`, `numtraj` is 0 and the loader raises no error; whenever
discovery, the configuration reader and the size computations succeed and the pmf
file can be created, the run ends normally and writes a pmf file headed
`# {jobname} 0-trajectory pmf` followed by the column line and `rsteps` rows. -/
theorem zero_trajectories (lib : Lib) (fs : FileSystem) (ind : Indeterminate) (args : Args)
    (maxtraj : ℤ) (sched : Schedule) (ts rs : ℤ)
    (hmax : discoverMaxtraj fs args.maxtraj = .ok maxtraj)
    (hnone : ∀ trajid : ℕ, 1 ≤ trajid → (trajid : ℤ) ≤ maxtraj →
      fs.stat (trajPath args.jobname trajid) = false ∧
      fs.read (trajPath args.jobname trajid) = none)
    (hconf : readConf lib fs args.jobname ind.schedule = .ok sched)
    (hts : computeTimesteps sched.numsteps sched.cvfreq = .ok ts) (hts0 : 0 ≤ ts)
    (hrs : rsteps sched.rbegin sched.rend args.rstepsize = .ok rs) (hrs0 : 0 ≤ rs)
    (hcreate : fs.create (args.jobname ++ ".pmf") = true) :
    countCompleted fs args.jobname maxtraj = 0 ∧
    ∃ out, main lib fs ind args = .ok out ∧
      out.pmffile.head? = some (.title args.jobname 0) ∧ out.pmffile.length = rs.toNat + 2 :=
  ⟨countCompleted_none fs args.jobname maxtraj (fun k h1 h2 => (hnone k h1 h2).1),
    main_no_samples lib fs ind args maxtraj sched ts rs hmax hnone hconf hts hts0 hrs hrs0
      hcreate⟩

/-- Witness of the amended C7 on the directory `traj1` without a sample file. -/
theorem zero_trajectories_witness :
    discoverMaxtraj fsNoSamples argsS1.maxtraj = .ok 1 ∧
    (∀ trajid : ℕ, 1 ≤ trajid → (trajid : ℤ) ≤ 1 →
      fsNoSamples.stat (trajPath argsS1.jobname trajid) = false ∧
      fsNoSamples.read (trajPath argsS1.jobname trajid) = none) ∧
    readConf plainLib fsNoSamples argsS1.jobname zeroStorage.schedule
      = .ok ⟨1, fin (decimal false 0 1), fin (decimal false 10 1), 1, fin (decimal false 10 0)⟩ ∧
    computeTimesteps 1 1 = .ok 2 ∧ (0 : ℤ) ≤ 2 ∧
    rsteps (fin (decimal false 0 1)) (fin (decimal false 10 1)) argsS1.rstepsize = .ok 3 ∧
    (0 : ℤ) ≤ 3 ∧ fsNoSamples.create (argsS1.jobname ++ ".pmf") = true ∧
    (countCompleted fsNoSamples argsS1.jobname 1 = 0 ∧
      ∃ out, main plainLib fsNoSamples zeroStorage argsS1 = .ok out ∧
        out.pmffile.head? = some (.title argsS1.jobname 0) ∧
        out.pmffile.length = (3 : ℤ).toNat + 2) :=
  ⟨rfl, fsNoSamples_none, readConf_confS1, rfl, by decide, rsteps_scenarioS1, by decide, rfl,
    zero_trajectories plainLib fsNoSamples zeroStorage argsS1 1 _ 2 3 rfl fsNoSamples_none
      readConf_confS1 rfl (by decide) rsteps_scenarioS1 (by decide) rfl⟩

/-- C8 at the failing input: with `timesteps = 2`, a sample file of three well-formed
data lines makes the loader write outside the arrays (the run ends on the index
failure, not on the incomplete-trajectory diagnostic), while a file of one data line
ends on the incomplete-trajectory diagnostic naming the file and a file of two data
lines loads. -/
theorem shape_error_too_many_lines :
    computeTimesteps 1 1 = .ok 2 ∧
    main plainLib (fsOneSample [dataLine0, dataLine1, dataLine1]) zeroStorage argsS1
      = .error .indexOutOfBounds ∧
    main plainLib (fsOneSample [dataLine0]) zeroStorage argsS1
      = .error (.incompleteTrajectory
          " Problem encountered with incomplete trajectory in file traj1/x_traj1.colvars.traj" 1) ∧
    ∃ st, loadTrajectories plainLib (fsOneSample [dataLine0, dataLine1]) "x" 1 1 2
        zeroStorage.arrays = .ok st ∧ st.trajnum = 1 :=
  ⟨rfl, rfl, rfl, _, rfl, rfl⟩

end RunClaims

section EstimatorLaws

theorem denominator_shiftWork (ri : RealInput) (k : ℝ) (hT : ri.T ≠ 0) (hn : 1 ≤ ri.numtraj)
    (j : ℕ) :
    denominator (ri.shiftWork k).toInput j = fin (Real.exp (betaR ri * k) * denomR ri j) := by
  rw [denominator_toInput (ri.shiftWork k) hT hn, denomR_shiftWork]
  congr 1
  have he : Real.exp (betaR ri * k) = (Real.exp (-k / gasR / ri.T))⁻¹ := by
    rw [← Real.exp_neg]
    congr 1
    unfold betaR
    rw [div_div]
    ring
  rw [he, div_eq_mul_inv, mul_comm]

theorem sumwR_permute (ri : RealInput) (σ : Equiv.Perm ℕ)
    (hσ : ∀ i, i < ri.numtraj ↔ σ i < ri.numtraj) (t : ℕ) :
    sumwR (ri.permute σ) t = sumwR ri t := by
  unfold sumwR
  exact Finset.sum_equiv σ (fun i => by simpa using hσ i) (fun i _ => rfl)

theorem numerR_permute (ri : RealInput) (σ : Equiv.Perm ℕ)
    (hσ : ∀ i, i < ri.numtraj ↔ σ i < ri.numtraj) (j : ℕ) :
    numerR (ri.permute σ) j = numerR ri j := by
  unfold numerR
  refine Finset.sum_congr rfl (fun t _ => ?_)
  refine Finset.sum_equiv σ (fun i => by simpa using hσ i) (fun i _ => ?_)
  rw [sumwR_permute ri σ hσ t]
  rfl

theorem expworksum_permute (ri : RealInput) (σ : Equiv.Perm ℕ)
    (hσ : ∀ i, i < ri.numtraj ↔ σ i < ri.numtraj) (hT : ri.T ≠ 0) (t : ℕ) :
    expworksum (ri.permute σ).toInput t = expworksum ri.toInput t := by
  rw [expworksum_toInput (ri.permute σ) hT, expworksum_toInput ri hT, sumwR_permute ri σ hσ]

theorem denominator_permute (ri : RealInput) (σ : Equiv.Perm ℕ)
    (hσ : ∀ i, i < ri.numtraj ↔ σ i < ri.numtraj) (hT : ri.T ≠ 0) (j : ℕ) :
    denominator (ri.permute σ).toInput j = denominator ri.toInput j := by
  unfold denominator
  have he : ∀ t, expworksum (ri.permute σ).toInput t = expworksum ri.toInput t :=
    expworksum_permute ri σ hσ hT
  simp only [he]
  rfl

theorem numerator_permute (ri : RealInput) (σ : Equiv.Perm ℕ)
    (hσ : ∀ i, i < ri.numtraj ↔ σ i < ri.numtraj) (hT : ri.T ≠ 0) (j : ℕ) :
    numerator (ri.permute σ).toInput j = numerator ri.toInput j := by
  rcases Nat.eq_zero_or_pos ri.numtraj with h0 | hpos
  · have h1 : (ri.permute σ).toInput.numtraj = 0 := h0
    have h2 : ri.toInput.numtraj = 0 := h0
    rw [numerator_unvisited _ j (fun i t hi _ => by omega),
      numerator_unvisited _ j (fun i t hi _ => by omega)]
  · rw [numerator_toInput (ri.permute σ) hT hpos, numerator_toInput ri hT hpos,
      numerR_permute ri σ hσ]

/-- C19 (trajectory-order invariance): for a nonzero temperature, rearranging the rows
of `r` and of the work by one permutation of the trajectory indices `0 .. numtraj-1`
leaves every `expworksum(t)`, `numerator(j)`, `denominator(j)` and `pmf(j)` unchanged. -/
theorem trajectory_order_invariance (ri : RealInput) (σ : Equiv.Perm ℕ)
    (hσ : ∀ i, i < ri.numtraj ↔ σ i < ri.numtraj) (hT : ri.T ≠ 0) :
    (∀ t, expworksum (ri.permute σ).toInput t = expworksum ri.toInput t) ∧
    (∀ j, numerator (ri.permute σ).toInput j = numerator ri.toInput j) ∧
    (∀ j, denominator (ri.permute σ).toInput j = denominator ri.toInput j) ∧
    (∀ j, pmf (ri.permute σ).toInput j = pmf ri.toInput j) := by
  refine ⟨expworksum_permute ri σ hσ hT, numerator_permute ri σ hσ hT,
    denominator_permute ri σ hσ hT, fun j => ?_⟩
  unfold pmf
  rw [numerator_permute ri σ hσ hT, denominator_permute ri σ hσ hT]
  rfl

theorem swap_zero_one_range (i : ℕ) : i < 2 ↔ (Equiv.swap 0 1 : Equiv.Perm ℕ) i < 2 := by
  by_cases h0 : i = 0
  · subst h0
    simp
  · by_cases h1 : i = 1
    · subst h1
      simp
    · rw [Equiv.swap_apply_of_ne_of_ne h0 h1]

/-- Witness of C19: the two trajectories of `twoTrajRun` exchanged. -/
theorem trajectory_order_invariance_witness :
    (∀ i, i < twoTrajRun.numtraj ↔ (Equiv.swap 0 1 : Equiv.Perm ℕ) i < twoTrajRun.numtraj) ∧
    twoTrajRun.T ≠ 0 ∧
    (∀ j, pmf (twoTrajRun.permute (Equiv.swap 0 1)).toInput j = pmf twoTrajRun.toInput j) :=
  ⟨swap_zero_one_range, by norm_num [twoTrajRun],
    (trajectory_order_invariance twoTrajRun (Equiv.swap 0 1) swap_zero_one_range
      (by norm_num [twoTrajRun])).2.2.2⟩

theorem truncR_nonpos {x : ℝ} (hx : x < 0) : truncR x ≤ 0 := by
  unfold truncR
  rw [if_neg (not_le.mpr hx)]
  have h : (0 : ℤ) ≤ ⌊-x⌋ := Int.floor_nonneg.mpr (by linarith)
  omega

end EstimatorLaws

section ConfigReader

theorem substr_zero (s : List Char) (n : ℕ) : substr s (some 0) (some n) = .ok (s.take n) := by
  simp [substr]

theorem confLine_eq (lib : Lib) (s : Schedule) (line : List Char) (h : 0 < line.length) :
    confLine lib s line = (confText line >>= confAction lib s) := by
  unfold confLine confText
  rw [if_pos h]
  cases h1 : substr line (find_first_not_of line ' ') none with
  | error e => rfl
  | ok l1 =>
    cases h2 : substr l1 (some 0) (find_first_of l1 '#') with
    | error e => simp [h2, bind, Except.bind]
    | ok t =>
      simp only [except_bind_ok, h2, substr_zero]
      rfl

theorem confLine_nil (lib : Lib) (s : Schedule) : confLine lib s [] = .ok s := rfl

theorem bind2_ok {α β : Type} (x : Except Fatal α) (g : α → Except Fatal β)
    (f : β → Schedule) (s2 : Schedule)
    (h : (x >>= fun a => g a >>= fun v => pure (f v)) = Except.ok s2) :
    ∃ a v, x = .ok a ∧ g a = .ok v ∧ s2 = f v := by
  cases x with
  | error e => cases h
  | ok a =>
    cases hg : g a with
    | error e =>
      rw [except_bind_ok, hg] at h
      cases h
    | ok v =>
      rw [except_bind_ok, hg] at h
      refine ⟨a, v, rfl, hg, ?_⟩
      injection h with h
      exact h.symm

theorem confAction_keeps (lib : Lib) (s s2 : Schedule) (t : List Char)
    (h : confAction lib s t = .ok s2) :
    (t.take 20 ≠ "colvarstrajfrequency".toList → s2.cvfreq = s.cvfreq) ∧
    (t.take 13 ≠ "forceconstant".toList → s2.force_constant = s.force_constant) ∧
    (t.take 7 ≠ "centers".toList → s2.rbegin = s.rbegin) ∧
    (t.take 13 ≠ "targetcenters".toList → s2.rend = s.rend) ∧
    (t.take 14 ≠ "targetnumsteps".toList → s2.numsteps = s.numsteps) := by
  unfold confAction at h
  split at h
  · rename_i hk
    obtain ⟨_, v, _, _, hv⟩ := bind2_ok _ _ (fun v => { s with cvfreq := v }) s2 h
    subst hv
    exact ⟨fun hn => absurd hk hn, fun _ => rfl, fun _ => rfl, fun _ => rfl, fun _ => rfl⟩
  · split at h
    · rename_i hk
      obtain ⟨_, v, _, _, hv⟩ := bind2_ok _ _ (fun v => { s with force_constant := v }) s2 h
      subst hv
      exact ⟨fun _ => rfl, fun hn => absurd hk hn, fun _ => rfl, fun _ => rfl, fun _ => rfl⟩
    · split at h
      · rename_i hk
        obtain ⟨_, v, _, _, hv⟩ := bind2_ok _ _ (fun v => { s with rbegin := v }) s2 h
        subst hv
        exact ⟨fun _ => rfl, fun _ => rfl, fun hn => absurd hk hn, fun _ => rfl, fun _ => rfl⟩
      · split at h
        · rename_i hk
          obtain ⟨_, v, _, _, hv⟩ := bind2_ok _ _ (fun v => { s with rend := v }) s2 h
          subst hv
          exact ⟨fun _ => rfl, fun _ => rfl, fun _ => rfl, fun hn => absurd hk hn, fun _ => rfl⟩
        · split at h
          · rename_i hk
            obtain ⟨_, v, _, _, hv⟩ := bind2_ok _ _ (fun v => { s with numsteps := v }) s2 h
            subst hv
            exact ⟨fun _ => rfl, fun _ => rfl, fun _ => rfl, fun _ => rfl, fun hn => absurd hk hn⟩
          · injection h with h
            subst h
            exact ⟨fun _ => rfl, fun _ => rfl, fun _ => rfl, fun _ => rfl, fun _ => rfl⟩

theorem confAction_unrecognized (lib : Lib) (s : Schedule) (t : List Char)
    (h1 : t.take 20 ≠ "colvarstrajfrequency".toList) (h2 : t.take 13 ≠ "forceconstant".toList)
    (h3 : t.take 7 ≠ "centers".toList) (h4 : t.take 13 ≠ "targetcenters".toList)
    (h5 : t.take 14 ≠ "targetnumsteps".toList) : confAction lib s t = .ok s := by
  unfold confAction
  rw [if_neg h1, if_neg h2, if_neg h3, if_neg h4, if_neg h5]
  rfl

theorem hasKeyword_false {kw line t : List Char} (hk : hasKeyword kw line = false)
    (ht : confText line = .ok t) : t.take kw.length ≠ kw := by
  unfold hasKeyword at hk
  rw [ht] at hk
  simpa using hk

/-- A line processed without error leaves unchanged every field whose keyword the
line does not begin with. -/
theorem confLine_keeps (lib : Lib) (s s2 : Schedule) (line : List Char)
    (h : confLine lib s line = .ok s2) :
    (hasKeyword "colvarstrajfrequency".toList line = false → s2.cvfreq = s.cvfreq) ∧
    (hasKeyword "forceconstant".toList line = false → s2.force_constant = s.force_constant) ∧
    (hasKeyword "centers".toList line = false → s2.rbegin = s.rbegin) ∧
    (hasKeyword "targetcenters".toList line = false → s2.rend = s.rend) ∧
    (hasKeyword "targetnumsteps".toList line = false → s2.numsteps = s.numsteps) := by
  rcases Nat.eq_zero_or_pos line.length with h0 | hpos
  · have hl : line = [] := List.length_eq_zero.mp h0
    subst hl
    rw [confLine_nil] at h
    injection h with h
    subst h
    exact ⟨fun _ => rfl, fun _ => rfl, fun _ => rfl, fun _ => rfl, fun _ => rfl⟩
  · rw [confLine_eq lib s line hpos] at h
    cases ht : confText line with
    | error e =>
      rw [ht] at h
      cases h
    | ok t =>
      rw [ht, except_bind_ok] at h
      obtain ⟨k1, k2, k3, k4, k5⟩ := confAction_keeps lib s s2 t h
      exact ⟨fun hk => k1 (hasKeyword_false hk ht), fun hk => k2 (hasKeyword_false hk ht),
        fun hk => k3 (hasKeyword_false hk ht), fun hk => k4 (hasKeyword_false hk ht),
        fun hk => k5 (hasKeyword_false hk ht)⟩

/-- The reader run over lines that are each processed without error produces a
schedule, in which a field whose keyword begins no line keeps its initial value. -/
theorem confLines_keeps (lib : Lib) (lines : List (List Char))
    (hlines : ∀ line ∈ lines, ∀ s, ∃ s2, confLine lib s line = .ok s2) (init : Schedule) :
    ∃ S, confLines lib init lines = .ok S ∧
      ((∀ line ∈ lines, hasKeyword "colvarstrajfrequency".toList line = false) →
        S.cvfreq = init.cvfreq) ∧
      ((∀ line ∈ lines, hasKeyword "forceconstant".toList line = false) →
        S.force_constant = init.force_constant) ∧
      ((∀ line ∈ lines, hasKeyword "centers".toList line = false) → S.rbegin = init.rbegin) ∧
      ((∀ line ∈ lines, hasKeyword "targetcenters".toList line = false) → S.rend = init.rend) ∧
      ((∀ line ∈ lines, hasKeyword "targetnumsteps".toList line = false) →
        S.numsteps = init.numsteps) := by
  induction lines generalizing init with
  | nil => exact ⟨init, rfl, fun _ => rfl, fun _ => rfl, fun _ => rfl, fun _ => rfl, fun _ => rfl⟩
  | cons line rest ih =>
    obtain ⟨s1, hs1⟩ := hlines line (List.mem_cons_self _ _) init
    obtain ⟨S, hS, r1, r2, r3, r4, r5⟩ :=
      ih (fun l hl => hlines l (List.mem_cons_of_mem _ hl)) s1
    obtain ⟨k1, k2, k3, k4, k5⟩ := confLine_keeps lib init s1 line hs1
    refine ⟨S, ?_, ?_, ?_, ?_, ?_, ?_⟩
    · show (confLine lib init line >>= fun s => confLines lib s rest) = _
      rw [hs1, except_bind_ok, hS]
    · intro h
      rw [r1 (fun l hl => h l (List.mem_cons_of_mem _ hl)), k1 (h line (List.mem_cons_self _ _))]
    · intro h
      rw [r2 (fun l hl => h l (List.mem_cons_of_mem _ hl)), k2 (h line (List.mem_cons_self _ _))]
    · intro h
      rw [r3 (fun l hl => h l (List.mem_cons_of_mem _ hl)), k3 (h line (List.mem_cons_self _ _))]
    · intro h
      rw [r4 (fun l hl => h l (List.mem_cons_of_mem _ hl)), k4 (h line (List.mem_cons_self _ _))]
    · intro h
      rw [r5 (fun l hl => h l (List.mem_cons_of_mem _ hl)), k5 (h line (List.mem_cons_self _ _))]

theorem find_first_not_of_spaces (n : ℕ) : find_first_not_of (List.replicate n ' ') ' ' = none := by
  unfold find_first_not_of
  have h : List.findIdx (fun x => x != ' ') (List.replicate n ' ') = (List.replicate n ' ').length := by
    rw [List.findIdx_eq_length]
    intro x hx
    rw [List.eq_of_mem_replicate hx]
    rfl
  simp [h]

/-- A nonempty configuration line made of spaces only ends the run:
`line.substr(npos)` throws `std::out_of_range`. -/
theorem confLine_spaces (lib : Lib) (s : Schedule) (n : ℕ) (hn : 0 < n) :
    confLine lib s (List.replicate n ' ') = .error .outOfRange := by
  rw [confLine_eq lib s _ (by simpa using hn)]
  unfold confText
  rw [find_first_not_of_spaces]
  rfl

end ConfigReader

section ConfigClaims

theorem confNoNumsteps_lines (line : List Char) (h : line ∈ confNoNumsteps) (s : Schedule) :
    ∃ s2, confLine plainLib s line = .ok s2 := by
  simp only [confNoNumsteps, List.mem_cons, List.mem_singleton, List.not_mem_nil, or_false] at h
  rcases h with h | h | h | h <;> subst h <;> exact ⟨_, rfl⟩

theorem confNoNumsteps_keyword (line : List Char) (h : line ∈ confNoNumsteps) :
    hasKeyword "targetnumsteps".toList line = false := by
  simp only [confNoNumsteps, List.mem_cons, List.mem_singleton, List.not_mem_nil, or_false] at h
  rcases h with h | h | h | h <;> subst h <;> decide


/-- C12 at the failing input: a configuration line of one or more spaces and nothing
else is not ignored, the run ends on `std::out_of_range` (for every library and every
state of the five locals); a line that is only a comment is ignored. -/
theorem blank_config_line (lib : Lib) (s : Schedule) (n : ℕ) (comment : List Char) :
    confLine lib s "   ".toList = .error .outOfRange ∧
    confLine lib s (List.replicate (n + 1) ' ') = .error .outOfRange ∧
    confLine lib s ('#' :: comment) = .ok s := by
  refine ⟨confLine_spaces lib s 3 (by decide), confLine_spaces lib s (n + 1) (by omega), ?_⟩
  rw [confLine_eq lib s _ (by simp)]
  have h1 : find_first_not_of ('#' :: comment) ' ' = some 0 := by
    simp [find_first_not_of, List.findIdx_cons]
  have h2 : find_first_of ('#' :: comment) '#' = some 0 := by
    simp [find_first_of, List.findIdx_cons]
  have ht : confText ('#' :: comment) = .ok [] := by
    unfold confText
    rw [h1]
    show (Except.ok ('#' :: comment) >>= fun l => substr l (some 0) (find_first_of l '#')) = _
    rw [except_bind_ok, h2]
    rfl
  rw [ht]
  rfl

/-- C13 at the failing input: the configuration file of S1 followed by an empty line
parses; with one space put before the empty line the reader ends on
`std::out_of_range`; with spaces put before the keyword lines and comments appended to
them it parses to the same values. -/
theorem config_robustness_blank_line :
    confLines plainLib zeroStorage.schedule (confS1 ++ [[]])
      = .ok ⟨1, fin (decimal false 0 1), fin (decimal false 10 1), 1, fin (decimal false 10 0)⟩ ∧
    confLines plainLib zeroStorage.schedule (confS1 ++ [[' ']]) = .error .outOfRange ∧
    confLines plainLib zeroStorage.schedule
        ["  colvarstrajfrequency 1# sampling".toList, " forceconstant 10#k".toList,
         "    centers 0.0# start".toList, "targetcenters 1.0#end".toList,
         " targetnumsteps 1#".toList, "#".toList]
      = .ok ⟨1, fin (decimal false 0 1), fin (decimal false 10 1), 1, fin (decimal false 10 0)⟩ :=
  ⟨rfl, rfl, rfl⟩

/-- C14 as stated fails: the configuration file of S1 without its `targetnumsteps`
line is read without error; `numsteps` keeps the value the local held before. -/
theorem missing_config_key_counterexample :
    (∀ line ∈ confNoNumsteps, hasKeyword "targetnumsteps".toList line = false) ∧
    readConf plainLib fsNoNumsteps "x" zeroStorage.schedule
      = .ok ⟨1, fin (decimal false 0 1), fin (decimal false 10 1), zeroStorage.schedule.numsteps,
          fin (decimal false 10 0)⟩ :=
  ⟨confNoNumsteps_keyword, rfl⟩

/-- C14 amended (missing configuration key): for a readable configuration file each
of whose lines is processed without error, configuration reading produces a schedule
whether or not every keyword occurs; the field of a keyword that begins no line keeps
the value its local variable held before the file was read. -/
theorem missing_config_key (lib : Lib) (fs : FileSystem) (jobname : String) (init : Schedule)
    (lines : List (List Char)) (hread : fs.read (confPath jobname) = some lines)
    (hlines : ∀ line ∈ lines, ∀ s, ∃ s2, confLine lib s line = .ok s2) :
    ∃ S, readConf lib fs jobname init = .ok S ∧
      ((∀ line ∈ lines, hasKeyword "colvarstrajfrequency".toList line = false) →
        S.cvfreq = init.cvfreq) ∧
      ((∀ line ∈ lines, hasKeyword "forceconstant".toList line = false) →
        S.force_constant = init.force_constant) ∧
      ((∀ line ∈ lines, hasKeyword "centers".toList line = false) → S.rbegin = init.rbegin) ∧
      ((∀ line ∈ lines, hasKeyword "targetcenters".toList line = false) → S.rend = init.rend) ∧
      ((∀ line ∈ lines, hasKeyword "targetnumsteps".toList line = false) →
        S.numsteps = init.numsteps) := by
  unfold readConf
  rw [hread]
  exact confLines_keeps lib lines hlines init

/-- Witness of the amended C14 on the configuration file without `targetnumsteps`. -/
theorem missing_config_key_witness :
    fsNoNumsteps.read (confPath "x") = some confNoNumsteps ∧
    (∀ line ∈ confNoNumsteps, ∀ s, ∃ s2, confLine plainLib s line = .ok s2) ∧
    (∀ line ∈ confNoNumsteps, hasKeyword "targetnumsteps".toList line = false) ∧
    ∃ S, readConf plainLib fsNoNumsteps "x" zeroStorage.schedule = .ok S ∧
      S.numsteps = zeroStorage.schedule.numsteps :=
  have h := missing_config_key plainLib fsNoNumsteps "x" zeroStorage.schedule confNoNumsteps rfl
    confNoNumsteps_lines
  ⟨rfl, confNoNumsteps_lines, confNoNumsteps_keyword,
    h.choose, h.choose_spec.1, h.choose_spec.2.2.2.2.2 confNoNumsteps_keyword⟩

end ConfigClaims

section Loader

theorem trajLine_eq (lib : Lib) (n T k ts : ℕ) (a : Arrays) (line : List Char) :
    trajLine lib n T k ts a line =
      if isDataLine line = false then .ok (ts, a)
      else rColumn lib line >>= fun r =>
        if ¬ (k < n ∧ ts < T) then .error .indexOutOfBounds
        else (if k = 0 then centreColumn lib line >>= fun c => .ok (set1 a.centerlist ts c)
              else .ok a.centerlist) >>= fun cl =>
          workColumn lib line >>= fun w =>
            .ok (ts + 1, { rlists := set2 a.rlists k ts r, centerlist := cl,
                           expworklists := set2 a.expworklists k ts w }) := by
  unfold trajLine rColumn workColumn centreColumn isDataLine
  simp only [substr_zero, except_bind_ok]
  by_cases hd : List.take 1 line = "#".toList
  · have hd2 : (List.take 1 line != ['#']) = false := by
      rw [hd]
      rfl
    rw [if_neg (not_not.mpr hd), if_pos hd2]
    rfl
  · have hd2 : ¬ ((List.take 1 line != ['#']) = false) := by
      intro h
      apply hd
      simpa using h
    rw [if_pos hd, if_neg hd2]
    cases h1 : substr line (some 12) (some 24) with
    | error e => rfl
    | ok x1 =>
      simp only [except_bind_ok]
      cases h2 : lib.stod x1 with
      | error e => rfl
      | ok r =>
        simp only [except_bind_ok]
        by_cases hb : k < n ∧ ts < T
        · rw [if_neg (not_not.mpr hb), if_neg (not_not.mpr hb)]
          by_cases hk : k = 0
          · rw [if_pos hk, if_pos hk]
            cases h3 : substr line (some 36) (some 23) with
            | error e => rfl
            | ok x3 =>
              cases h4 : lib.stod x3 with
              | error e => simp [h4, bind, Except.bind, pure, Except.pure]
              | ok c =>
                cases h5 : substr line (some 59) (some 22) with
                | error e => simp [h4, h5, hb.2, bind, Except.bind, pure, Except.pure]
                | ok x5 =>
                  cases h6 : lib.stod x5 with
                  | error e => simp [h4, h5, h6, hb.2, bind, Except.bind, pure, Except.pure]
                  | ok w => simp [h4, h5, h6, hb, hb.2, bind, Except.bind, pure, Except.pure]
          · rw [if_neg hk, if_neg hk]
            cases h5 : substr line (some 59) (some 22) with
            | error e => simp [h5, bind, Except.bind, pure, Except.pure]
            | ok x5 =>
              cases h6 : lib.stod x5 with
              | error e => simp [h5, h6, bind, Except.bind, pure, Except.pure]
              | ok w => simp [h5, h6, hb, bind, Except.bind, pure, Except.pure]
        · rw [if_pos hb, if_pos hb]
          rfl

/-- What a data line that is loaded without error has done. -/
theorem trajLine_data_inv (lib : Lib) (n T k ts : ℕ) (a : Arrays) (line : List Char)
    (ts2 : ℕ) (a2 : Arrays) (hd : isDataLine line = true)
    (h : trajLine lib n T k ts a line = .ok (ts2, a2)) :
    ∃ r cl w, rColumn lib line = .ok r ∧ k < n ∧ ts < T ∧
      (if k = 0 then ∃ c, centreColumn lib line = .ok c ∧ cl = set1 a.centerlist ts c
        else cl = a.centerlist) ∧
      workColumn lib line = .ok w ∧ ts2 = ts + 1 ∧
      a2 = { rlists := set2 a.rlists k ts r, centerlist := cl,
             expworklists := set2 a.expworklists k ts w } := by
  rw [trajLine_eq, if_neg (by simp [hd])] at h
  cases hr : rColumn lib line with
  | error e =>
    rw [hr] at h
    cases h
  | ok r =>
    rw [hr, except_bind_ok] at h
    by_cases hb : k < n ∧ ts < T
    · rw [if_neg (not_not.mpr hb)] at h
      by_cases hk : k = 0
      · rw [if_pos hk] at h
        cases hc : centreColumn lib line with
        | error e =>
          rw [hc] at h
          cases h
        | ok c =>
          rw [hc, except_bind_ok, except_bind_ok] at h
          cases hw : workColumn lib line with
          | error e =>
            rw [hw] at h
            cases h
          | ok w =>
            rw [hw, except_bind_ok] at h
            injection h with h
            injection h with h1 h2
            refine ⟨r, _, w, rfl, hb.1, hb.2, ?_, rfl, h1.symm, h2.symm⟩
            rw [if_pos hk]
            exact ⟨c, rfl, rfl⟩
      · rw [if_neg hk, except_bind_ok] at h
        cases hw : workColumn lib line with
        | error e =>
          rw [hw] at h
          cases h
        | ok w =>
          rw [hw, except_bind_ok] at h
          injection h with h
          injection h with h1 h2
          refine ⟨r, _, w, rfl, hb.1, hb.2, ?_, rfl, h1.symm, h2.symm⟩
          rw [if_neg hk]
    · rw [if_pos hb] at h
      cases h

theorem trajLine_header (lib : Lib) (n T k ts : ℕ) (a : Arrays) (line : List Char)
    (hd : isDataLine line = false) : trajLine lib n T k ts a line = .ok (ts, a) := by
  rw [trajLine_eq, if_pos hd]

theorem trajLines_cons (lib : Lib) (n T k ts : ℕ) (a : Arrays) (line : List Char)
    (rest : List (List Char)) :
    trajLines lib n T k ts a (line :: rest)
      = (trajLine lib n T k ts a line >>= fun p => trajLines lib n T k p.1 p.2 rest) := by
  show (trajLine lib n T k ts a line >>= fun p =>
      match p with
      | (ts1, a1) => trajLines lib n T k ts1 a1 rest) = _
  rfl

theorem dataLines_cons_data (line : List Char) (rest : List (List Char))
    (hd : isDataLine line = true) : dataLines (line :: rest) = line :: dataLines rest := by
  simp [dataLines, List.filter_cons, hd]

theorem dataLines_cons_header (line : List Char) (rest : List (List Char))
    (hd : isDataLine line = false) : dataLines (line :: rest) = dataLines rest := by
  simp [dataLines, List.filter_cons, hd]

/-- A sample file loaded without error: the line counter advances by the number of
data lines; for the first loaded trajectory (`trajnum = 0`) entry `ts + k` of
`centerlist` is the guiding-centre column of data line `k` and the earlier entries are
kept; for any other trajectory `centerlist` is untouched. -/
theorem trajLines_inv (lib : Lib) (n T k : ℕ) (lines : List (List Char)) (ts : ℕ) (a : Arrays)
    (ts2 : ℕ) (a2 : Arrays) (h : trajLines lib n T k ts a lines = .ok (ts2, a2)) :
    ts2 = ts + (dataLines lines).length ∧
    (k ≠ 0 → a2.centerlist = a.centerlist) ∧
    (k = 0 → (∀ t, t < ts → a2.centerlist t = a.centerlist t) ∧
      ∀ i line, (dataLines lines)[i]? = some line →
        centreColumn lib line = .ok (a2.centerlist (ts + i))) := by
  induction lines generalizing ts a with
  | nil =>
    injection h with h
    injection h with h1 h2
    subst h1
    subst h2
    exact ⟨by simp [dataLines], fun _ => rfl, fun _ => ⟨fun _ _ => rfl, fun i line hi => by
      simp [dataLines] at hi⟩⟩
  | cons line rest ih =>
    rw [trajLines_cons] at h
    cases hl : trajLine lib n T k ts a line with
    | error e =>
      rw [hl] at h
      cases h
    | ok p =>
      obtain ⟨ts1, a1⟩ := p
      rw [hl, except_bind_ok] at h
      obtain ⟨i1, i2, i3⟩ := ih ts1 a1 h
      cases hd : isDataLine line with
      | false =>
        rw [trajLine_header lib n T k ts a line hd] at hl
        injection hl with hl
        injection hl with h1 h2
        subst h1
        subst h2
        rw [dataLines_cons_header line rest hd]
        exact ⟨i1, i2, i3⟩
      | true =>
        obtain ⟨r, cl, w, _, _, _, hcl, _, hts1, ha1⟩ :=
          trajLine_data_inv lib n T k ts a line ts1 a1 hd hl
        subst hts1
        rw [dataLines_cons_data line rest hd]
        refine ⟨by simp [i1]; omega, fun hk => ?_, fun hk => ?_⟩
        · rw [i2 hk, ha1]
          rw [if_neg hk] at hcl
          exact hcl
        · obtain ⟨j1, j2⟩ := i3 hk
          rw [if_pos hk] at hcl
          obtain ⟨c, hc, hcl⟩ := hcl
          have hts : a2.centerlist ts = c := by
            rw [j1 ts (by omega), ha1, hcl]
            simp [set1]
          refine ⟨fun t ht => ?_, fun i line2 hi => ?_⟩
          · rw [j1 t (by omega), ha1, hcl]
            simp [set1, Nat.ne_of_lt ht]
          · cases i with
            | zero =>
              simp only [List.getElem?_cons_zero, Option.some.injEq] at hi
              subst hi
              rw [Nat.add_zero, hts]
              exact hc
            | succ i =>
              rw [List.getElem?_cons_succ] at hi
              have := j2 i line2 hi
              rw [show ts + (i + 1) = ts + 1 + i by omega]
              exact this

theorem loadOne_skip (lib : Lib) (fs : FileSystem) (jobname : String) (n T : ℕ) (st : LoadState)
    (trajid : ℕ) (hr : fs.read (trajPath jobname trajid) = none) :
    loadOne lib fs jobname n T st trajid
      = .ok { st with stdout := st.stdout ++ [skippingMessage jobname trajid] } := by
  unfold loadOne
  rw [hr]
  rfl

/-- What a sample file that opens and is loaded without error has done. -/
theorem loadOne_inv (lib : Lib) (fs : FileSystem) (jobname : String) (n T : ℕ)
    (st st2 : LoadState) (trajid : ℕ) (lines : List (List Char))
    (hr : fs.read (trajPath jobname trajid) = some lines)
    (h : loadOne lib fs jobname n T st trajid = .ok st2) :
    st2.trajnum = st.trajnum + 1 ∧ st2.stdout = st.stdout ∧
      trajLines lib n T st.trajnum 0 st.arrays lines = .ok (T, st2.arrays) := by
  unfold loadOne at h
  rw [hr] at h
  cases hl : trajLines lib n T st.trajnum 0 st.arrays lines with
  | error e =>
    simp only [hl] at h
    cases h
  | ok p =>
    obtain ⟨ts, a⟩ := p
    simp only [hl] at h
    by_cases hts : ts = T
    · subst hts
      simp only [except_bind_ok, ne_eq, not_true_eq_false, if_false] at h
      injection h with h
      subst h
      exact ⟨rfl, rfl, rfl⟩
    · simp only [except_bind_ok, ne_eq, hts, not_false_eq_true, if_true] at h
      cases h

theorem loadLoop_cons (lib : Lib) (fs : FileSystem) (jobname : String) (n T : ℕ)
    (st : LoadState) (trajid : ℕ) (rest : List ℕ) :
    loadLoop lib fs jobname n T st (trajid :: rest)
      = (loadOne lib fs jobname n T st trajid >>= fun st1 =>
          loadLoop lib fs jobname n T st1 rest) := rfl

/-- The loop over `trajid` ended without error: `trajnum` has advanced by the number
of sample files that open, and `centerlist` holds the guiding-centre column of the
data lines of the first file loaded with `trajnum = 0`. -/
theorem loadLoop_inv (lib : Lib) (fs : FileSystem) (jobname : String) (n T : ℕ)
    (ids : List ℕ) (st st2 : LoadState)
    (h : loadLoop lib fs jobname n T st ids = .ok st2) :
    st2.trajnum
        = st.trajnum + (ids.filter (fun k => (fs.read (trajPath jobname k)).isSome)).length ∧
    (st.trajnum ≠ 0 → st2.arrays.centerlist = st.arrays.centerlist) ∧
    (st.trajnum = 0 →
      (firstLoaded fs jobname ids = none → st2.arrays.centerlist = st.arrays.centerlist) ∧
      ∀ lines, firstLoaded fs jobname ids = some lines →
        (dataLines lines).length = T ∧
        ∀ i line, (dataLines lines)[i]? = some line →
          centreColumn lib line = .ok (st2.arrays.centerlist i)) := by
  induction ids generalizing st with
  | nil =>
    injection h with h
    subst h
    exact ⟨by simp, fun _ => rfl, fun _ => ⟨fun _ => rfl, fun lines hl => by
      simp [firstLoaded] at hl⟩⟩
  | cons trajid rest ih =>
    rw [loadLoop_cons] at h
    cases hr : fs.read (trajPath jobname trajid) with
    | none =>
      rw [loadOne_skip lib fs jobname n T st trajid hr, except_bind_ok] at h
      obtain ⟨i1, i2, i3⟩ := ih _ h
      have hf : firstLoaded fs jobname (trajid :: rest) = firstLoaded fs jobname rest := by
        simp [firstLoaded, hr]
      rw [hf]
      refine ⟨?_, i2, i3⟩
      rw [i1]
      simp [List.filter_cons, hr]
    | some lines =>
      cases h1 : loadOne lib fs jobname n T st trajid with
      | error e =>
        rw [h1] at h
        cases h
      | ok st1 =>
        rw [h1, except_bind_ok] at h
        obtain ⟨j1, _, j3⟩ := loadOne_inv lib fs jobname n T st st1 trajid lines hr h1
        obtain ⟨i1, i2, _⟩ := ih _ h
        have hne : st1.trajnum ≠ 0 := by omega
        obtain ⟨t1, t2, t3⟩ := trajLines_inv lib n T st.trajnum lines 0 st.arrays T st1.arrays j3
        have hf : firstLoaded fs jobname (trajid :: rest) = some lines := by
          simp [firstLoaded, hr]
        refine ⟨?_, fun hk => ?_, fun hk => ?_⟩
        · rw [i1, j1]
          simp [List.filter_cons, hr]
          omega
        · rw [i2 hne, t2 hk]
        · rw [hf]
          refine ⟨fun hc => (by cases hc), fun lines2 hl => ?_⟩
          injection hl with hl
          subst hl
          refine ⟨by omega, fun i line hi => ?_⟩
          rw [i2 hne]
          have := (t3 hk).2 i line hi
          rwa [Nat.zero_add] at this

theorem loadTrajectories_inv (lib : Lib) (fs : FileSystem) (jobname : String) (maxtraj : ℤ)
    (n T : ℕ) (init : Arrays) (st : LoadState)
    (h : loadTrajectories lib fs jobname maxtraj n T init = .ok st) :
    loadLoop lib fs jobname n T ⟨0, init, []⟩ (List.range' 1 maxtraj.toNat) = .ok st ∧
      st.trajnum = n := by
  unfold loadTrajectories at h
  cases hl : loadLoop lib fs jobname n T ⟨0, init, []⟩ (List.range' 1 maxtraj.toNat) with
  | error e =>
    rw [hl] at h
    cases h
  | ok st1 =>
    rw [hl, except_bind_ok] at h
    by_cases hn : st1.trajnum = n
    · simp only [ne_eq, hn, not_true_eq_false, if_false] at h
      injection h with h
      subst h
      exact ⟨rfl, hn⟩
    · simp only [ne_eq, hn, not_false_eq_true, if_true] at h
      cases h

end Loader

section LoaderClaims

theorem substr_slice (s : List Char) (p n : ℕ) (hp : p ≤ s.length) :
    substr s (some p) (some n) = .ok ((s.take (p + n)).drop p) := by
  show (if p > s.length then Except.error Fatal.outOfRange
    else Except.ok (List.take n (List.drop p s))) = _
  rw [if_neg (by omega), List.take_drop]

theorem firstLoaded_traj1 (fs : FileSystem) (jobname : String) (maxtraj : ℤ)
    (lines : List (List Char)) (hm : 1 ≤ maxtraj)
    (hr : fs.read (trajPath jobname 1) = some lines) :
    firstLoaded fs jobname (List.range' 1 maxtraj.toNat) = some lines := by
  obtain ⟨m, hm2⟩ : ∃ m, maxtraj.toNat = m + 1 := ⟨maxtraj.toNat - 1, by omega⟩
  rw [hm2, List.range'_succ]
  simp [firstLoaded, hr]

/-- The centre schedule after a load without error is the guiding-centre column of
the data lines of the first sample file that opens. -/
theorem centerlist_of_load (lib : Lib) (fs : FileSystem) (jobname : String) (maxtraj : ℤ)
    (numtraj timesteps : ℕ) (init : Arrays) (st : LoadState)
    (h : loadTrajectories lib fs jobname maxtraj numtraj timesteps init = .ok st)
    (lines : List (List Char))
    (hfirst : firstLoaded fs jobname (List.range' 1 maxtraj.toNat) = some lines) :
    (dataLines lines).length = timesteps ∧
    ∀ t, t < timesteps → ∃ line, (dataLines lines)[t]? = some line ∧
      centreColumn lib line = .ok (st.arrays.centerlist t) := by
  obtain ⟨hl, _⟩ := loadTrajectories_inv lib fs jobname maxtraj numtraj timesteps init st h
  obtain ⟨_, _, i3⟩ := loadLoop_inv lib fs jobname numtraj timesteps _ _ st hl
  obtain ⟨hlen, hcol⟩ := (i3 rfl).2 lines hfirst
  refine ⟨hlen, fun t ht => ?_⟩
  have hlt : t < (dataLines lines).length := by omega
  exact ⟨(dataLines lines)[t], List.getElem?_eq_getElem hlt,
    hcol t _ (List.getElem?_eq_getElem hlt)⟩

/-- C11 as stated fails: with no sample file in `traj1` and one in `traj2`, the load
succeeds and the centre schedule is the guiding-centre column of the file of `traj2`. -/
theorem centre_schedule_counterexample :
    discoverMaxtraj fsSecondOnly 0 = .ok 2 ∧ countCompleted fsSecondOnly "x" 2 = 1 ∧
    fsSecondOnly.read (trajPath "x" 1) = none ∧
    fsSecondOnly.read (trajPath "x" 2) = some [headerLine, dataLine0, dataLine1] ∧
    centreColumn plainLib dataLine1 = .ok (fin (decimal false 10 1)) ∧
    ∃ st, loadTrajectories plainLib fsSecondOnly "x" 2 1 2 zeroStorage.arrays = .ok st ∧
      st.arrays.centerlist 1 = fin (decimal false 10 1) :=
  ⟨rfl, by decide, by decide, by decide, rfl, _, rfl, rfl⟩

/-- C11 amended (authoritative centre schedule): for every set of trajectory files
that loads without error, the centre schedule `c[t]` is the guiding-centre column of
data line `t` of the first sample file that opens among `traj1 .. traj{maxtraj}`, which
is the file of `traj1` whenever that file opens; any other load whose first file is
the same yields the same schedule, whatever the other files hold. -/
theorem centre_schedule (lib : Lib) (fs : FileSystem) (jobname : String) (maxtraj : ℤ)
    (numtraj timesteps : ℕ) (init : Arrays) (st : LoadState)
    (h : loadTrajectories lib fs jobname maxtraj numtraj timesteps init = .ok st)
    (lines : List (List Char))
    (hfirst : firstLoaded fs jobname (List.range' 1 maxtraj.toNat) = some lines) :
    (∀ t, t < timesteps → ∃ line, (dataLines lines)[t]? = some line ∧
      centreColumn lib line = .ok (st.arrays.centerlist t)) ∧
    (∀ lines1, 1 ≤ maxtraj → fs.read (trajPath jobname 1) = some lines1 → lines = lines1) ∧
    (∀ (fs2 : FileSystem) (maxtraj2 : ℤ) (numtraj2 : ℕ) (init2 : Arrays) (st2 : LoadState),
      loadTrajectories lib fs2 jobname maxtraj2 numtraj2 timesteps init2 = .ok st2 →
      firstLoaded fs2 jobname (List.range' 1 maxtraj2.toNat) = some lines →
      ∀ t, t < timesteps → st2.arrays.centerlist t = st.arrays.centerlist t) := by
  obtain ⟨_, hc⟩ := centerlist_of_load lib fs jobname maxtraj numtraj timesteps init st h
    lines hfirst
  refine ⟨hc, fun lines1 hm hr => ?_, fun fs2 maxtraj2 numtraj2 init2 st2 h2 hf2 t ht => ?_⟩
  · have := firstLoaded_traj1 fs jobname maxtraj lines1 hm hr
    rw [hfirst] at this
    injection this
  · obtain ⟨_, hc2⟩ := centerlist_of_load lib fs2 jobname maxtraj2 numtraj2 timesteps init2
      st2 h2 lines hf2
    obtain ⟨l1, hl1, e1⟩ := hc t ht
    obtain ⟨l2, hl2, e2⟩ := hc2 t ht
    rw [hl1] at hl2
    injection hl2 with hl2
    subst hl2
    rw [e1] at e2
    injection e2 with e2
    exact e2.symm

/-- Witness of the amended C11 on scenario S2, whose first sample file is that of `traj1`. -/
theorem centre_schedule_witness :
    ∃ st, loadTrajectories plainLib fsS2 "x" 3 2 2 zeroStorage.arrays = .ok st ∧
      firstLoaded fsS2 "x" (List.range' 1 (3 : ℤ).toNat)
        = some [headerLine, dataLine0, dataLine1] ∧
      ∀ t, t < 2 → ∃ line, (dataLines [headerLine, dataLine0, dataLine1])[t]? = some line ∧
        centreColumn plainLib line = .ok (st.arrays.centerlist t) :=
  ⟨_, rfl, rfl,
    (centre_schedule plainLib fsS2 "x" 3 2 2 zeroStorage.arrays _ rfl
      [headerLine, dataLine0, dataLine1] rfl).1⟩

/-- C15 (fixed-width columns): a data line of at least 81 characters, at an index
inside the arrays, whose characters `[12,36)` and `[59,81)` read as the numbers `r` and
`w` (and, for the first loaded trajectory, whose characters `[36,59)` read as `c`), is
loaded without error: `rlists(trajnum, timestep) = r`, `expworklists(trajnum,
timestep) = w`, the line counter advances by one, and `centerlist(timestep) = c` for
the first loaded trajectory, `centerlist` being untouched otherwise. -/
theorem fixed_width_columns (lib : Lib) (numtraj timesteps trajnum timestep : ℕ) (a : Arrays)
    (line : List Char) (hdata : isDataLine line = true) (hlen : 81 ≤ line.length)
    (hi : trajnum < numtraj) (ht : timestep < timesteps) (r c w : Dbl)
    (hr : lib.stod ((line.take 36).drop 12) = .ok r)
    (hc : trajnum = 0 → lib.stod ((line.take 59).drop 36) = .ok c)
    (hw : lib.stod ((line.take 81).drop 59) = .ok w) :
    ∃ a2, trajLine lib numtraj timesteps trajnum timestep a line = .ok (timestep + 1, a2) ∧
      a2.rlists trajnum timestep = r ∧ a2.expworklists trajnum timestep = w ∧
      (trajnum = 0 → a2.centerlist timestep = c) ∧
      (trajnum ≠ 0 → a2.centerlist = a.centerlist) := by
  have hrc : rColumn lib line = .ok r := by
    unfold rColumn
    rw [substr_slice line 12 24 (by omega), except_bind_ok]
    exact hr
  have hwc : workColumn lib line = .ok w := by
    unfold workColumn
    rw [substr_slice line 59 22 (by omega), except_bind_ok]
    exact hw
  rw [trajLine_eq, if_neg (by simp [hdata]), hrc, except_bind_ok,
    if_neg (not_not.mpr ⟨hi, ht⟩)]
  by_cases hk : trajnum = 0
  · have hcc : centreColumn lib line = .ok c := by
      unfold centreColumn
      rw [substr_slice line 36 23 (by omega), except_bind_ok]
      exact hc hk
    rw [if_pos hk, hcc, except_bind_ok, except_bind_ok, hwc, except_bind_ok]
    exact ⟨_, rfl, by simp [set2], by simp [set2], fun _ => by simp [set1],
      fun h => absurd hk h⟩
  · rw [if_neg hk, except_bind_ok, hwc, except_bind_ok]
    exact ⟨_, rfl, by simp [set2], by simp [set2], fun h => absurd h hk, fun _ => rfl⟩

/-- Witness of C15: the second data line of scenario S1 loaded at index 1. -/
theorem fixed_width_columns_witness :
    isDataLine dataLine1 = true ∧ 81 ≤ dataLine1.length ∧ (0 : ℕ) < 1 ∧ (1 : ℕ) < 2 ∧
    plainLib.stod ((dataLine1.take 36).drop 12) = .ok (fin (decimal false 10 1)) ∧
    plainLib.stod ((dataLine1.take 59).drop 36) = .ok (fin (decimal false 10 1)) ∧
    plainLib.stod ((dataLine1.take 81).drop 59) = .ok (fin (decimal false 0 1)) ∧
    ∃ a2, trajLine plainLib 1 2 0 1 zeroStorage.arrays dataLine1 = .ok (1 + 1, a2) ∧
      a2.rlists 0 1 = fin (decimal false 10 1) ∧
      a2.expworklists 0 1 = fin (decimal false 0 1) ∧
      a2.centerlist 1 = fin (decimal false 10 1) :=
  have h := fixed_width_columns plainLib 1 2 0 1 zeroStorage.arrays dataLine1 (by decide)
    (by decide) (by decide) (by decide) (fin (decimal false 10 1)) (fin (decimal false 10 1))
    (fin (decimal false 0 1)) rfl (fun _ => rfl) rfl
  ⟨by decide, by decide, by decide, by decide, rfl, rfl, rfl,
    h.choose, h.choose_spec.1, h.choose_spec.2.1, h.choose_spec.2.2.1,
    h.choose_spec.2.2.2.1 rfl⟩

end LoaderClaims

section Discovery

theorem countTrajDirs_eq (fs : FileSystem) (n : ℕ)
    (hex : ∀ k, 1 ≤ k → k ≤ n → fs.stat (trajDir k) = true)
    (hno : fs.stat (trajDir (n + 1)) = false) (fuel : ℕ) :
    ∀ m, m ≤ n → n - m < fuel → countTrajDirs fs fuel m = some n := by
  induction fuel with
  | zero =>
    intro m _ h
    omega
  | succ fuel ih =>
    intro m hm hf
    unfold countTrajDirs
    rcases Nat.lt_or_ge m n with hlt | hge
    · rw [if_pos (hex (m + 1) (by omega) (by omega))]
      exact ih (m + 1) (by omega) (by omega)
    · have hmn : m = n := by omega
      subst hmn
      rw [if_neg (by simp [hno])]

theorem countCompleted_eq (fs : FileSystem) (jobname : String) (n : ℕ) :
    countCompleted fs jobname n
      = ((List.range' 1 n).filter (fun trajid => fs.stat (trajPath jobname trajid))).length := by
  unfold countCompleted
  rw [List.range'_eq_map_range, List.filter_map, List.length_map]
  simp only [Int.toNat_ofNat]
  congr 1
  apply List.filter_congr
  intro k _
  simp [Function.comp, Nat.add_comm]

theorem filter_length_congr (l : List ℕ) (p q : ℕ → Bool) (h : ∀ k ∈ l, p k = q k) :
    (l.filter p).length = (l.filter q).length := by
  rw [List.filter_congr h]

/-- When the sample files that pass `stat` are exactly those that open, a load whose
loop over `trajid` ends without error passes the reconciliation check of line 133. -/
theorem no_reconciliation_error (lib : Lib) (fs : FileSystem) (jobname : String) (n : ℕ)
    (hsame : ∀ trajid, 1 ≤ trajid → trajid ≤ n →
      fs.stat (trajPath jobname trajid) = (fs.read (trajPath jobname trajid)).isSome)
    (timesteps : ℕ) (init : Arrays) (st : LoadState)
    (hl : loadLoop lib fs jobname (countCompleted fs jobname n) timesteps ⟨0, init, []⟩
      (List.range' 1 n) = .ok st) :
    st.trajnum = countCompleted fs jobname n ∧
      loadTrajectories lib fs jobname n (countCompleted fs jobname n) timesteps init
        = .ok st := by
  obtain ⟨i1, _, _⟩ := loadLoop_inv lib fs jobname _ timesteps _ _ st hl
  have hcount : st.trajnum = countCompleted fs jobname n := by
    rw [i1, countCompleted_eq]
    simp only [Nat.zero_add]
    apply filter_length_congr
    intro t ht
    rw [List.mem_range'_1] at ht
    exact (hsame t ht.1 (by omega)).symm
  refine ⟨hcount, ?_⟩
  unfold loadTrajectories
  simp only [Int.toNat_ofNat]
  rw [hl, except_bind_ok]
  simp only [ne_eq, hcount, not_true_eq_false, if_false]
  rfl

/-- C16 (discovery): with `maxtraj` unset, directories `traj1 .. trajn` present and
`traj(n+1)` absent (`n` below the `int` bound), discovery sets `maxtraj = n`; `numtraj`
is the number of `trajid` in `[1, n]` whose sample file passes `stat`; and when the
sample files that pass `stat` are those that open, a load whose loop over `trajid` ends
without error raises no reconciliation error. -/
theorem discovery (fs : FileSystem) (jobname : String) (n : ℕ) (hn : n ≤ 2147483646)
    (hex : ∀ k, 1 ≤ k → k ≤ n → fs.stat (trajDir k) = true)
    (hno : fs.stat (trajDir (n + 1)) = false) :
    discoverMaxtraj fs 0 = .ok (n : ℤ) ∧
    countCompleted fs jobname n
      = ((List.range' 1 n).filter (fun trajid => fs.stat (trajPath jobname trajid))).length ∧
    ((∀ trajid, 1 ≤ trajid → trajid ≤ n →
        fs.stat (trajPath jobname trajid) = (fs.read (trajPath jobname trajid)).isSome) →
      ∀ (lib : Lib) (timesteps : ℕ) (init : Arrays) (st : LoadState),
        loadLoop lib fs jobname (countCompleted fs jobname n) timesteps ⟨0, init, []⟩
          (List.range' 1 n) = .ok st →
        loadTrajectories lib fs jobname n (countCompleted fs jobname n) timesteps init
          = .ok st) := by
  refine ⟨?_, countCompleted_eq fs jobname n, fun hsame lib timesteps init st hl =>
    (no_reconciliation_error lib fs jobname n hsame timesteps init st hl).2⟩
  unfold discoverMaxtraj
  rw [if_pos rfl, countTrajDirs_eq fs n hex hno 2147483647 0 (by omega) (by omega)]

theorem fsS2_dirs (k : ℕ) (h1 : 1 ≤ k) (h3 : k ≤ 3) : fsS2.stat (trajDir k) = true := by
  have h : k = 1 ∨ k = 2 ∨ k = 3 := by omega
  rcases h with h | h | h <;> subst h <;> decide

/-- Witness of C16 on scenario S2: `maxtraj = 3`, `numtraj = 2`, and the load ends
without error, with the warning for `traj2` printed. -/
theorem discovery_witness :
    (3 : ℕ) ≤ 2147483646 ∧ (∀ k, 1 ≤ k → k ≤ 3 → fsS2.stat (trajDir k) = true) ∧
    fsS2.stat (trajDir (3 + 1)) = false ∧
    discoverMaxtraj fsS2 0 = .ok ((3 : ℕ) : ℤ) ∧ countCompleted fsS2 "x" 3 = 2 ∧
    ∃ st, loadTrajectories plainLib fsS2 "x" 3 2 2 zeroStorage.arrays = .ok st ∧
      st.trajnum = 2 ∧ st.stdout = [skippingMessage "x" 2] :=
  ⟨by decide, fsS2_dirs, by decide,
    (discovery fsS2 "x" 3 (by decide) fsS2_dirs (by decide)).1, by decide,
    _, rfl, rfl, rfl⟩

end Discovery

section Writer

theorem checkSize_ok (n : ℤ) (m : ℕ) (h : checkSize n = .ok m) : 0 ≤ n ∧ m = n.toNat := by
  unfold checkSize at h
  by_cases hn : n < 0
  · rw [if_pos hn] at h
    cases h
  · rw [if_neg hn] at h
    injection h with h
    exact ⟨by omega, h.symm⟩

theorem checkSize_of_nonneg (n : ℤ) (h : 0 ≤ n) : checkSize n = .ok n.toNat := by
  unfold checkSize
  rw [if_neg (by omega)]

/-- A run whose stages all succeed ends normally with the pmf file of line 162 on. -/
theorem main_of_stages (lib : Lib) (fs : FileSystem) (ind : Indeterminate) (args : Args)
    (maxtraj : ℤ) (sched : Schedule) (ts rs : ℤ) (st : LoadState)
    (hmax : discoverMaxtraj fs args.maxtraj = .ok maxtraj)
    (hconf : readConf lib fs args.jobname ind.schedule = .ok sched)
    (hts : computeTimesteps sched.numsteps sched.cvfreq = .ok ts) (hts0 : 0 ≤ ts)
    (hload : loadTrajectories lib fs args.jobname maxtraj
      (countCompleted fs args.jobname maxtraj) ts.toNat ind.arrays = .ok st)
    (hrs : rsteps sched.rbegin sched.rend args.rstepsize = .ok rs) (hrs0 : 0 ≤ rs)
    (hcreate : fs.create (args.jobname ++ ".pmf") = true) :
    main lib fs ind args = .ok
      { stdout := st.stdout,
        pmffile := pmfLines args.jobname
          { numtraj := countCompleted fs args.jobname maxtraj, timesteps := ts.toNat,
            rlists := st.arrays.rlists, centerlist := st.arrays.centerlist,
            worklists := st.arrays.expworklists, force_constant := sched.force_constant,
            rbegin := sched.rbegin, rstepsize := args.rstepsize,
            temperature := args.temperature } rs.toNat } := by
  unfold main
  rw [hmax, except_bind_ok, hconf, except_bind_ok, hts, except_bind_ok,
    checkSize_of_nonneg ts hts0, except_bind_ok, hload, except_bind_ok, hrs, except_bind_ok,
    checkSize_of_nonneg rs hrs0, except_bind_ok]
  unfold writePmf
  rw [hcreate, if_pos rfl]

/-- A run that ends normally has passed every stage, and its pmf file is the one of
line 162 on. -/
theorem main_inv (lib : Lib) (fs : FileSystem) (ind : Indeterminate) (args : Args)
    (out : Output) (h : main lib fs ind args = .ok out) :
    ∃ (maxtraj : ℤ) (sched : Schedule) (ts rs : ℤ) (st : LoadState),
      discoverMaxtraj fs args.maxtraj = .ok maxtraj ∧
      readConf lib fs args.jobname ind.schedule = .ok sched ∧
      computeTimesteps sched.numsteps sched.cvfreq = .ok ts ∧ 0 ≤ ts ∧
      loadTrajectories lib fs args.jobname maxtraj
        (countCompleted fs args.jobname maxtraj) ts.toNat ind.arrays = .ok st ∧
      rsteps sched.rbegin sched.rend args.rstepsize = .ok rs ∧ 0 ≤ rs ∧
      out.pmffile = pmfLines args.jobname
          { numtraj := countCompleted fs args.jobname maxtraj, timesteps := ts.toNat,
            rlists := st.arrays.rlists, centerlist := st.arrays.centerlist,
            worklists := st.arrays.expworklists, force_constant := sched.force_constant,
            rbegin := sched.rbegin, rstepsize := args.rstepsize,
            temperature := args.temperature } rs.toNat := by
  unfold main at h
  cases h1 : discoverMaxtraj fs args.maxtraj with
  | error e =>
    rw [h1] at h
    cases h
  | ok maxtraj =>
    rw [h1, except_bind_ok] at h
    cases h2 : readConf lib fs args.jobname ind.schedule with
    | error e =>
      rw [h2] at h
      cases h
    | ok sched =>
      rw [h2, except_bind_ok] at h
      cases h3 : computeTimesteps sched.numsteps sched.cvfreq with
      | error e =>
        rw [h3] at h
        cases h
      | ok ts =>
        rw [h3, except_bind_ok] at h
        cases h4 : checkSize ts with
        | error e =>
          rw [h4] at h
          cases h
        | ok tsn =>
          rw [h4, except_bind_ok] at h
          obtain ⟨hts0, htsn⟩ := checkSize_ok ts tsn h4
          subst htsn
          cases h5 : loadTrajectories lib fs args.jobname maxtraj
              (countCompleted fs args.jobname maxtraj) ts.toNat ind.arrays with
          | error e =>
            rw [h5] at h
            cases h
          | ok st =>
            rw [h5, except_bind_ok] at h
            cases h6 : rsteps sched.rbegin sched.rend args.rstepsize with
            | error e =>
              rw [h6] at h
              cases h
            | ok rs =>
              rw [h6, except_bind_ok] at h
              cases h7 : checkSize rs with
              | error e =>
                rw [h7] at h
                cases h
              | ok rsn =>
                rw [h7, except_bind_ok] at h
                obtain ⟨hrs0, hrsn⟩ := checkSize_ok rs rsn h7
                subst hrsn
                unfold writePmf at h
                by_cases hc : fs.create (args.jobname ++ ".pmf") = true
                · rw [if_pos hc] at h
                  injection h with h
                  subst h
                  exact ⟨maxtraj, sched, ts, rs, st, rfl, rfl, h3, hts0, h5, h6, hrs0, rfl⟩
                · rw [if_neg hc] at h
                  cases h

theorem readConf_oneSample (dataLines : List (List Char)) :
    readConf plainLib (fsOneSample dataLines) "x" zeroStorage.schedule
      = .ok ⟨1, fin (decimal false 0 1), fin (decimal false 10 1), 1, fin (decimal false 10 0)⟩ :=
  rfl

/-- Scenario S1 runs to the end. -/
theorem main_scenarioS1 :
    ∃ out, main plainLib (fsOneSample [dataLine0, dataLine1]) zeroStorage argsS1 = .ok out :=
  ⟨_, main_of_stages plainLib (fsOneSample [dataLine0, dataLine1]) zeroStorage argsS1 1 _ 2 3 _
    rfl (readConf_oneSample _) rfl (by decide) rfl rsteps_scenarioS1 (by decide) rfl⟩

end Writer

section ConfigDecoration

theorem blank_comment_line (lib : Lib) (s : Schedule) (c : List Char) :
    confLine lib s ([] ++ '#' :: c) = .ok s := by
  rw [List.nil_append, confLine_eq lib s _ (by simp)]
  have h1 : find_first_not_of ('#' :: c) ' ' = some 0 := by
    simp [find_first_not_of, List.findIdx_cons]
  have h2 : find_first_of ('#' :: c) '#' = some 0 := by
    simp [find_first_of, List.findIdx_cons]
  have ht : confText ('#' :: c) = .ok [] := by
    unfold confText
    rw [h1]
    show (Except.ok ('#' :: c) >>= fun l => substr l (some 0) (find_first_of l '#')) = _
    rw [except_bind_ok, h2]
    rfl
  rw [ht]
  rfl


theorem findIdx_replicate_append (p : Char → Bool) (n : ℕ) (l : List Char)
    (hp : p ' ' = false) :
    List.findIdx p (List.replicate n ' ' ++ l) = List.findIdx p l + n := by
  rw [List.findIdx_append]
  have h : List.findIdx p (List.replicate n ' ') = (List.replicate n ' ').length := by
    rw [List.findIdx_eq_length]
    intro x hx
    rw [List.eq_of_mem_replicate hx]
    exact hp
  rw [h, if_neg (lt_irrefl _), List.length_replicate]

theorem find_first_not_of_prepend (n : ℕ) (l : List Char) (i : ℕ)
    (h : find_first_not_of l ' ' = some i) :
    find_first_not_of (List.replicate n ' ' ++ l) ' ' = some (i + n) := by
  unfold find_first_not_of at h ⊢
  simp only [findIdx_replicate_append (fun x => x != ' ') n l (by decide),
    List.length_append, List.length_replicate]
  by_cases hlt : List.findIdx (fun x => x != ' ') l < l.length
  · rw [if_pos hlt] at h
    injection h with h
    rw [if_pos (by omega), h]
  · rw [if_neg hlt] at h
    cases h

theorem find_first_not_of_le (l : List Char) (i : ℕ) (h : find_first_not_of l ' ' = some i) :
    i < l.length := by
  unfold find_first_not_of at h
  by_cases hlt : List.findIdx (fun x => x != ' ') l < l.length
  · rw [if_pos hlt] at h
    injection h with h
    omega
  · rw [if_neg hlt] at h
    cases h

theorem confText_eq (l : List Char) (i : ℕ) (h : find_first_not_of l ' ' = some i) :
    confText l = substr (l.drop i) (some 0) (find_first_of (l.drop i) '#') := by
  have hi := find_first_not_of_le l i h
  unfold confText
  rw [h]
  have hs : substr l (some i) none = .ok (l.drop i) := by
    show (if i > l.length then Except.error Fatal.outOfRange else Except.ok (l.drop i)) = _
    rw [if_neg (by omega)]
  rw [hs, except_bind_ok]

/-- Spaces put before a line that holds a character other than a space do not change
the text the keyword tests see. -/
theorem confText_prepend (n : ℕ) (l : List Char) (i : ℕ)
    (h : find_first_not_of l ' ' = some i) :
    confText (List.replicate n ' ' ++ l) = confText l := by
  rw [confText_eq _ _ (find_first_not_of_prepend n l i h), confText_eq l i h]
  have hd : (List.replicate n ' ' ++ l).drop (i + n) = l.drop i := by
    rw [Nat.add_comm, ← List.drop_drop]
    congr 1
    rw [List.drop_append_of_le_length (by simp), List.drop_of_length_le (by simp)]
    rfl
  rw [hd]

theorem find_first_not_of_append (l c : List Char) (i : ℕ)
    (h : find_first_not_of l ' ' = some i) :
    find_first_not_of (l ++ c) ' ' = some i := by
  unfold find_first_not_of at h ⊢
  by_cases hlt : List.findIdx (fun x => x != ' ') l < l.length
  · rw [if_pos hlt] at h
    simp only [List.findIdx_append, if_pos hlt, List.length_append]
    rw [if_pos (by omega)]
    exact h
  · rw [if_neg hlt] at h
    cases h

/-- The cut at the first `#` of a text is not changed by a comment appended to it. -/
theorem cut_append_comment (u c : List Char) :
    substr (u ++ '#' :: c) (some 0) (find_first_of (u ++ '#' :: c) '#')
      = substr u (some 0) (find_first_of u '#') := by
  unfold find_first_of
  simp only [List.findIdx_append, List.length_append, List.length_cons]
  by_cases hlt : List.findIdx (fun x => x == '#') u < u.length
  · simp only [if_pos hlt]
    rw [if_pos (by omega)]
    show (if 0 > (u ++ '#' :: c).length then Except.error Fatal.outOfRange
      else Except.ok (List.take _ (List.drop 0 (u ++ '#' :: c)))) =
      (if 0 > u.length then Except.error Fatal.outOfRange
      else Except.ok (List.take _ (List.drop 0 u)))
    rw [if_neg (by omega), if_neg (by omega), List.drop_zero, List.drop_zero,
      List.take_append_of_le_length (by omega)]
  · simp only [if_neg hlt]
    have h0 : List.findIdx (fun x => x == '#') ('#' :: c) = 0 := by
      simp [List.findIdx_cons]
    rw [h0, if_pos (by omega)]
    show (if 0 > (u ++ '#' :: c).length then Except.error Fatal.outOfRange
      else Except.ok (List.take _ (List.drop 0 (u ++ '#' :: c)))) =
      (if 0 > u.length then Except.error Fatal.outOfRange
      else Except.ok (List.drop 0 u))
    rw [if_neg (by omega), if_neg (by omega), List.drop_zero, List.drop_zero, Nat.zero_add,
      List.take_append_of_le_length (le_refl _), List.take_length]

/-- A comment appended to a line that holds a character other than a space does not
change the text the keyword tests see. -/
theorem confText_append_comment (l c : List Char) (i : ℕ)
    (h : find_first_not_of l ' ' = some i) :
    confText (l ++ '#' :: c) = confText l := by
  have hi := find_first_not_of_le l i h
  rw [confText_eq _ _ (find_first_not_of_append l ('#' :: c) i h), confText_eq l i h,
    List.drop_append_of_le_length (by omega), cut_append_comment]

/-- The positive part of config robustness: on a line that holds a character other
than a space, spaces put before it and a comment appended to it change nothing; a
comment appended to an empty line changes nothing either. -/
theorem confLine_decorated (lib : Lib) (s : Schedule) (n : ℕ) (l c : List Char) (i : ℕ)
    (h : find_first_not_of l ' ' = some i) :
    confLine lib s (List.replicate n ' ' ++ l) = confLine lib s l ∧
    confLine lib s (l ++ '#' :: c) = confLine lib s l ∧
    confLine lib s (List.replicate n ' ' ++ (l ++ '#' :: c)) = confLine lib s l ∧
    confLine lib s ([] ++ '#' :: c) = confLine lib s [] := by
  have hi := find_first_not_of_le l i h
  have h2 := find_first_not_of_append l ('#' :: c) i h
  refine ⟨?_, ?_, ?_, ?_⟩
  · rw [confLine_eq lib s _ (by simp; omega), confLine_eq lib s l (by omega),
      confText_prepend n l i h]
  · rw [confLine_eq lib s _ (by simp), confLine_eq lib s l (by omega),
      confText_append_comment l c i h]
  · rw [confLine_eq lib s _ (by simp), confLine_eq lib s l (by omega),
      confText_prepend n _ i h2, confText_append_comment l c i h]
  · exact ((blank_comment_line lib s c).trans (confLine_nil lib s).symm)

end ConfigDecoration

section ShapeCheck

/-- A sample file loaded without error has no more data lines than the arrays have
columns: every data line is stored at an index below `timesteps`. -/
theorem trajLines_le (lib : Lib) (n T k : ℕ) (lines : List (List Char)) (ts : ℕ) (a : Arrays)
    (ts2 : ℕ) (a2 : Arrays) (h : trajLines lib n T k ts a lines = .ok (ts2, a2))
    (hts : ts ≤ T) : ts2 ≤ T := by
  induction lines generalizing ts a with
  | nil =>
    injection h with h
    injection h with h1 h2
    omega
  | cons line rest ih =>
    rw [trajLines_cons] at h
    cases hl : trajLine lib n T k ts a line with
    | error e =>
      rw [hl] at h
      cases h
    | ok p =>
      obtain ⟨ts1, a1⟩ := p
      rw [hl, except_bind_ok] at h
      cases hd : isDataLine line with
      | false =>
        rw [trajLine_header lib n T k ts a line hd] at hl
        injection hl with hl
        injection hl with h1 h2
        subst h1
        exact ih ts a1 h hts
      | true =>
        obtain ⟨_, _, _, _, _, hlt, _, _, hts1, _⟩ :=
          trajLine_data_inv lib n T k ts a line ts1 a1 hd hl
        subst hts1
        exact ih (ts + 1) a1 h (by omega)

/-- The shape check of line 121 is reached only by files with at most `timesteps`
data lines: a file with more data lines ends the loop over its lines on a failure
(the write outside the arrays, when its lines are well formed), and a file with fewer
data lines that are read without error ends on the incomplete-trajectory diagnostic. -/
theorem shape_check_reach (lib : Lib) (fs : FileSystem) (jobname : String) (n T : ℕ)
    (st : LoadState) (trajid : ℕ) (lines : List (List Char))
    (hr : fs.read (trajPath jobname trajid) = some lines) :
    (T < (dataLines lines).length →
      ∃ e, trajLines lib n T st.trajnum 0 st.arrays lines = .error e ∧
        loadOne lib fs jobname n T st trajid = .error e) ∧
    (∀ ts2 a2, trajLines lib n T st.trajnum 0 st.arrays lines = .ok (ts2, a2) →
      (dataLines lines).length < T →
      loadOne lib fs jobname n T st trajid
        = .error (.incompleteTrajectory (incompleteMessage jobname trajid)
            (dataLines lines).length)) := by
  constructor
  · intro hmany
    cases hl : trajLines lib n T st.trajnum 0 st.arrays lines with
    | ok p =>
      obtain ⟨ts2, a2⟩ := p
      have h1 := (trajLines_inv lib n T st.trajnum lines 0 st.arrays ts2 a2 hl).1
      have h2 := trajLines_le lib n T st.trajnum lines 0 st.arrays ts2 a2 hl (by omega)
      omega
    | error e =>
      refine ⟨e, rfl, ?_⟩
      unfold loadOne
      rw [hr]
      simp only [hl]
      rfl
  · intro ts2 a2 hl hfew
    have h1 := (trajLines_inv lib n T st.trajnum lines 0 st.arrays ts2 a2 hl).1
    rw [Nat.zero_add] at h1
    unfold loadOne
    rw [hr]
    simp only [hl, except_bind_ok]
    subst h1
    rw [if_pos (by omega)]
    rfl

end ShapeCheck

end Analyzesmd
